import Mathlib

/-!
Shallow embedding of `run.go` from the Jmeter-Starter repository.

The program is a sequential CLI wrapper around the external `jmeter`
binary.  All operating-system interactions (clock, file reads, directory
listing, process spawning, console input) are modelled as explicit oracle
inputs in an `Env` record; the mutable world the program touches
(existing directories, the debug-log file content, console output,
spawned processes) is a `RunState` record threaded through a small
state-plus-exit monad `GoM`.  Pure library routines the code calls
(`strconv.Atoi`, `strings.HasSuffix`, `strings.TrimSpace`,
`filepath.Join`/`Clean`, `encoding/json` struct decoding, the relevant
fragment of `xmlquery`) are translated directly below.
-/

/-! ## Characters, digits, Go `strconv` -/

/-- Decimal value of a list of ASCII digit characters (most significant
first), as computed by Go's `strconv` digit loop. -/
def digitsToNat (l : List Char) : Nat :=
  l.foldl (fun a c => a * 10 + (c.toNat - 48)) 0

/-- Model of Go `strconv.Atoi` (= `strconv.ParseInt(s, 10, 0)` with the
platform `int` being 64 bits): an optional single sign followed by at
least one ASCII digit; any other character, an empty string, or a value
outside the `int64` range is an error (`none`). -/
def goAtoi (s : String) : Option Int :=
  match s.data with
  | [] => none
  | c :: rest =>
    let neg : Bool := c = '-'
    let ds : List Char := if c = '-' ∨ c = '+' then rest else c :: rest
    if ds = [] then none
    else if ds.all (fun d => d.isDigit) then
      let v : Int := if neg then -(digitsToNat ds : Int) else (digitsToNat ds : Int)
      if v < -(2 ^ 63) ∨ v > 2 ^ 63 - 1 then none else some v
    else none

/-- Model of Go `unicode.IsSpace` (the characters `strings.TrimSpace`
strips): ASCII whitespace plus the Unicode space code points. -/
def isGoSpace (c : Char) : Bool :=
  c = ' ' ∨ c = '\t' ∨ c = '\n' ∨ c = '\x0b' ∨ c = '\x0c' ∨ c = '\r' ∨
  c = '\u0085' ∨ c = '\u00A0' ∨ c = '\u1680' ∨
  ('\u2000' ≤ c ∧ c ≤ '\u200A') ∨
  c = '\u2028' ∨ c = '\u2029' ∨ c = '\u202F' ∨ c = '\u205F' ∨ c = '\u3000'

/-- Model of Go `strings.TrimSpace`: drop leading and trailing space
characters. -/
def goTrimSpace (s : String) : String :=
  ⟨((s.data.dropWhile isGoSpace).reverse.dropWhile isGoSpace).reverse⟩

/-- Model of Go `strings.HasSuffix` (byte-level suffix test; for the
well-formed UTF-8 strings involved this coincides with the character
level). -/
def goHasSuffix (s suffix : String) : Bool :=
  suffix.data.isSuffixOf s.data

/-- ASCII-case-insensitive string comparison, modelling
`strings.EqualFold` on the ASCII tag names used by the JSON decoder. -/
def asciiFoldChar (c : Char) : Char :=
  if 'A' ≤ c ∧ c ≤ 'Z' then Char.ofNat (c.toNat + 32) else c

/-- Case-insensitive equality on field names (`strings.EqualFold`
restricted to ASCII, which covers every tag in the program). -/
def eqFold (a b : String) : Bool :=
  a.data.map asciiFoldChar = b.data.map asciiFoldChar

/-! ## Time formatting (`time.Format` layouts used by the program)

`time.Now()` is an environment oracle: the model receives the current
wall-clock fields as a `DateTime` record.  For in-range field values the
two format functions below produce exactly what Go's layouts
`"20060102_150405"` and `"2006-01-02 15:04:05"` print. -/

structure DateTime where
  year : Nat
  month : Nat
  day : Nat
  hour : Nat
  minute : Nat
  second : Nat
deriving DecidableEq

/-- Two-digit zero-padded decimal rendering (layout components `01`,
`02`, `15`, `04`, `05`), for values below 100. -/
def pad2 (n : Nat) : String :=
  ⟨[Nat.digitChar (n / 10 % 10), Nat.digitChar (n % 10)]⟩

/-- Four-digit zero-padded decimal rendering (layout component `2006`),
for values below 10000. -/
def pad4 (n : Nat) : String :=
  ⟨[Nat.digitChar (n / 1000 % 10), Nat.digitChar (n / 100 % 10),
    Nat.digitChar (n / 10 % 10), Nat.digitChar (n % 10)]⟩

/-- The `getTimestamp` from `run.go`: `time.Now().Format("20060102_150405")`,
with the clock supplied as an oracle. -/
def getTimestamp (t : DateTime) : String :=
  pad4 t.year ++ pad2 t.month ++ pad2 t.day ++ "_" ++
  pad2 t.hour ++ pad2 t.minute ++ pad2 t.second

/-- The timestamp layout `"2006-01-02 15:04:05"` used by `writeLog`. -/
def fmtLogTime (t : DateTime) : String :=
  pad4 t.year ++ "-" ++ pad2 t.month ++ "-" ++ pad2 t.day ++ " " ++
  pad2 t.hour ++ ":" ++ pad2 t.minute ++ ":" ++ pad2 t.second

/-! ## `path/filepath` (Unix rules): `Clean` and two-argument `Join` -/

/-- Split a character list at `'/'` separators; returns the first
component and the remaining components. -/
def splitSlashAux : List Char → List Char × List (List Char)
  | [] => ([], [])
  | c :: cs =>
    let r := splitSlashAux cs
    if c = '/' then ([], r.1 :: r.2) else (c :: r.1, r.2)

/-- All `'/'`-separated components of a character list. -/
def splitSlash (l : List Char) : List (List Char) :=
  (splitSlashAux l).1 :: (splitSlashAux l).2

/-- The element-processing loop of `filepath.Clean`: components are
pushed on a (reversed) output stack; empty and `.` components are
dropped; `..` pops a previous real component, is dropped at the root,
and is kept otherwise. -/
def cleanFold (rooted : Bool) : List (List Char) → List (List Char) → List (List Char)
  | acc, [] => acc
  | acc, c :: cs =>
    if c = [] ∨ c = ['.'] then cleanFold rooted acc cs
    else if c = ['.', '.'] then
      match acc with
      | [] => if rooted then cleanFold rooted [] cs else cleanFold rooted [['.', '.']] cs
      | top :: rest =>
        if top = ['.', '.'] then cleanFold rooted (c :: top :: rest) cs
        else cleanFold rooted rest cs
    else cleanFold rooted (c :: acc) cs

/-- The `filepath.Clean` (Unix separator) on a character list. -/
def cleanList (l : List Char) : List Char :=
  if l = [] then ['.']
  else
    let rooted : Bool := l.head? = some '/'
    let comps := (cleanFold rooted [] (splitSlash l)).reverse
    let body := List.intercalate ['/'] comps
    if rooted then '/' :: body
    else if body = [] then ['.'] else body

/-- Model of Go `filepath.Clean` for Unix paths. -/
def cleanPath (p : String) : String :=
  ⟨cleanList p.data⟩

/-- Model of Go `filepath.Join` on two elements: empty elements are
dropped and the slash-joined rest is passed through `Clean`. -/
def goJoin (a b : String) : String :=
  if a = "" ∧ b = "" then ""
  else if a = "" then cleanPath b
  else if b = "" then cleanPath a
  else cleanPath (a ++ "/" ++ b)

/-! ## Fixed configuration paths (`var` block of `run.go`) -/

def reportDir : String := "Reporter"
def jtlDir : String := "Jtl"
def debugDir : String := "Debug"
def logFile : String := goJoin debugDir "pmeter.log"

/-! ## XML fragment used by `parseThreadCount` (`xmlquery`)

Only the parts of `xmlquery` the program exercises are modelled: the
parsed document is a node tree, `FindOne(doc,
"//intProp[@name='ThreadGroup.num_threads']")` is the document-order
first matching element, and `InnerText` concatenates the text content of
a subtree.  Turning bytes into the tree (`xmlquery.Parse`) is an oracle
`String → Option XNode` (`none` = parse error). -/

mutual
inductive XNode where
  | elem (name : String) (attrs : List (String × String)) (children : XNodes)
  | text (s : String)
inductive XNodes where
  | nil
  | cons (x : XNode) (xs : XNodes)
end

/-- First attribute with the given name, as `xmlquery` attribute lookup. -/
def attrLookup (attrs : List (String × String)) (key : String) : Option String :=
  match attrs.find? (fun p => p.1 = key) with
  | some p => some p.2
  | none => none

mutual
/-- Document-order first element matching
`//intProp[@name='ThreadGroup.num_threads']`. -/
def findThreadProp : XNode → Option XNode
  | .text _ => none
  | .elem n attrs cs =>
    if n = "intProp" ∧ attrLookup attrs "name" = some "ThreadGroup.num_threads" then
      some (.elem n attrs cs)
    else findThreadPropList cs
def findThreadPropList : XNodes → Option XNode
  | .nil => none
  | .cons x xs =>
    match findThreadProp x with
    | some r => some r
    | none => findThreadPropList xs
end

mutual
/-- The `xmlquery` `InnerText`: concatenation of all text content below a
node, in document order. -/
def innerText : XNode → String
  | .text s => s
  | .elem _ _ cs => innerTextList cs
def innerTextList : XNodes → String
  | .nil => ""
  | .cons x xs => innerText x ++ innerTextList xs
end

/-- The `parseThreadCount` from `run.go`, as a pure function of the oracles it
consumes: the outcome of `ioutil.ReadFile` and of `xmlquery.Parse` (whose
error text `xmlErrMsg` is OS/library-supplied).  Returns the extracted
count together with the messages it hands to `writeLog`; every failure
yields `0` and one log message. -/
def parseThreadCountCore (readRes : Except String String)
    (parseXML : String → Option XNode) (xmlErrMsg : String) : Int × List String :=
  match readRes with
  | .error e => (0, ["读取JMX文件失败: " ++ e])
  | .ok data =>
    match parseXML data with
    | none => (0, ["解析XML失败: " ++ xmlErrMsg])
    | some doc =>
      match findThreadProp doc with
      | none => (0, ["未找到线程数配置"])
      | some node =>
        match goAtoi (innerText node) with
        | none => (0, ["转换线程数失败: " ++ innerText node])
        | some count => (count, [])

/-! ## JSON values and `encoding/json` decoding into `Statistics`

A `JValue` is the abstract syntax of a well-formed JSON document; the
text-to-`JValue` step of `json.Unmarshal` is an oracle (`none` =
malformed input).  Numbers keep their literal spelling: Go's decoder
feeds the literal to `strconv.ParseInt` for integer fields and
`strconv.ParseFloat` for float fields.  Float values are modelled as
exact rationals (`float64` rounding is below this abstraction). -/

inductive JValue where
  | null
  | bool (b : Bool)
  | num (lit : String)
  | str (s : String)
  | arr (xs : List JValue)
  | obj (kvs : List (String × JValue))

/-- JSON number literal to an exact rational, modelling
`strconv.ParseFloat`: optional sign, integer digits, optional fraction,
optional decimal exponent. -/
def parseDec (s : String) : Option ℚ :=
  let l := s.data
  let sign : Int := if l.head? = some '-' then -1 else 1
  let l := if l.head? = some '-' ∨ l.head? = some '+' then l.tail else l
  let intPart := l.takeWhile (fun c => c.isDigit)
  let rest := l.dropWhile (fun c => c.isDigit)
  let fracPart := if rest.head? = some '.' then rest.tail.takeWhile (fun c => c.isDigit) else []
  let rest2 := if rest.head? = some '.' then rest.tail.dropWhile (fun c => c.isDigit) else rest
  if intPart = [] ∧ fracPart = [] then none
  else
    let mant : ℚ := (digitsToNat intPart : ℚ) +
      (digitsToNat fracPart : ℚ) / ((10 : ℚ) ^ fracPart.length)
    match rest2 with
    | [] => some (sign * mant)
    | e :: es =>
      if e = 'e' ∨ e = 'E' then
        let esign : Bool := es.head? = some '-'
        let eds := if es.head? = some '-' ∨ es.head? = some '+' then es.tail else es
        if eds = [] ∨ ¬(eds.all (fun c => c.isDigit)) then none
        else
          let ex := digitsToNat eds
          some (sign * mant * (if esign then 1 / (10 : ℚ) ^ ex else (10 : ℚ) ^ ex))
      else none

/-- The `Total` sub-struct of `Statistics` in `run.go` (fields in source
order; `Errorcount` is the Go field name, whose JSON tag is
`errorCount`). -/
structure TotalStats where
  sampleCount : Int
  errorPct : ℚ
  meanResTime : ℚ
  throughput : ℚ
  errorcount : Int
deriving DecidableEq

/-- The `Statistics` struct of `run.go`. -/
structure Statistics where
  Total : TotalStats
deriving DecidableEq

def zeroTotal : TotalStats := ⟨0, 0, 0, 0, 0⟩

/-- The five JSON-tagged fields of `Total`. -/
inductive TotalField where
  | sampleCount | errorPct | meanResTime | throughput | errorCount
deriving DecidableEq

/-- The `encoding/json` field matching for the `Total` struct: exact tag
match first, then case-insensitive. -/
def totalFieldOf (k : String) : Option TotalField :=
  if k = "sampleCount" then some .sampleCount
  else if k = "errorPct" then some .errorPct
  else if k = "meanResTime" then some .meanResTime
  else if k = "throughput" then some .throughput
  else if k = "errorCount" then some .errorCount
  else if eqFold k "sampleCount" then some .sampleCount
  else if eqFold k "errorPct" then some .errorPct
  else if eqFold k "meanResTime" then some .meanResTime
  else if eqFold k "throughput" then some .throughput
  else if eqFold k "errorCount" then some .errorCount
  else none

/-- Decode one `Total` object entry, as the `encoding/json` object loop
does: unknown keys are ignored, JSON `null` leaves the field untouched,
a number literal is parsed per the field's kind, anything else is an
`UnmarshalTypeError`. -/
def decodeTotalField (acc : TotalStats) (k : String) (v : JValue) :
    Except String TotalStats :=
  match totalFieldOf k with
  | none => .ok acc
  | some f =>
    match v with
    | .null => .ok acc
    | .num lit =>
      match f with
      | .sampleCount =>
        match goAtoi lit with
        | some n => .ok { acc with sampleCount := n }
        | none => .error ("cannot unmarshal number " ++ lit ++ " into field sampleCount of type int")
      | .errorCount =>
        match goAtoi lit with
        | some n => .ok { acc with errorcount := n }
        | none => .error ("cannot unmarshal number " ++ lit ++ " into field errorCount of type int")
      | .errorPct =>
        match parseDec lit with
        | some q => .ok { acc with errorPct := q }
        | none => .error ("cannot unmarshal number " ++ lit ++ " into field errorPct of type float64")
      | .meanResTime =>
        match parseDec lit with
        | some q => .ok { acc with meanResTime := q }
        | none => .error ("cannot unmarshal number " ++ lit ++ " into field meanResTime of type float64")
      | .throughput =>
        match parseDec lit with
        | some q => .ok { acc with throughput := q }
        | none => .error ("cannot unmarshal number " ++ lit ++ " into field throughput of type float64")
    | _ => .error "cannot unmarshal value into Total field"

/-- Decode a JSON value into the `Total` struct: `null` is a no-op, an
object is folded entry by entry (later duplicates overwrite earlier
ones, as in Go), anything else is a type error. -/
def decodeTotal (acc : TotalStats) : JValue → Except String TotalStats
  | .null => .ok acc
  | .obj kvs => kvs.foldlM (fun a kv => decodeTotalField a kv.1 kv.2) acc
  | _ => .error "cannot unmarshal value into Total of type struct"

/-- The `json.Unmarshal(data, &stats)` on an already-parsed value: the top
level must be an object (or `null`); entries whose key matches `Total`
(exactly or case-insensitively) are decoded into the sub-struct, others
are ignored.  Go reports the first decoding error; since the program
drops the partial result on error, short-circuiting is observationally
identical here. -/
def decodeStatistics : JValue → Except String Statistics
  | .null => .ok ⟨zeroTotal⟩
  | .obj kvs =>
    (kvs.foldlM (fun a kv => if eqFold kv.1 "Total" then decodeTotal a kv.2 else .ok a)
      zeroTotal).map (fun t => ⟨t⟩)
  | _ => .error "cannot unmarshal value into Statistics of type struct"

/-- The dynamic (`interface\x7b\x7d`) values stored in the map built by
`parseStatistics`: Go `int` or `float64` (modelled as an exact rational). -/
inductive SValue where
  | int (n : Int)
  | num (q : ℚ)
deriving DecidableEq

/-- Read/parse errors surfaced by `parseStatistics`. -/
inductive JError where
  | readErr (e : String)
  | malformed
  | typeErr (e : String)
deriving DecidableEq

/-- The `parseStatistics` from `run.go`: reads `statistics.json` inside the
report folder (the filesystem is the `readFile` oracle), unmarshals it
(`jsonParse` is the text-to-value oracle, `none` = syntax error), and on
success builds the five-entry map in source order.  Note the Go map key
for the error count is the string `"Errorcount"`. -/
def parseStatistics (readFile : String → Except String String)
    (jsonParse : String → Option JValue) (reportFolder : String) :
    Except JError (List (String × SValue)) :=
  let statFile := goJoin reportFolder "statistics.json"
  match readFile statFile with
  | .error e => .error (.readErr e)
  | .ok data =>
    match jsonParse data with
    | none => .error .malformed
    | some v =>
      match decodeStatistics v with
      | .error e => .error (.typeErr e)
      | .ok stats =>
        .ok [("sampleCount", .int stats.Total.sampleCount),
             ("errorPct", .num stats.Total.errorPct),
             ("meanResTime", .num stats.Total.meanResTime),
             ("throughput", .num stats.Total.throughput),
             ("Errorcount", .int stats.Total.errorcount)]

/-- The `stats["k"].(float64)` type assertion on the map (total here because
the map is built with known value kinds). -/
def lookupQ (m : List (String × SValue)) (k : String) : ℚ :=
  match m.lookup k with
  | some (.num q) => q
  | _ => 0

/-- The `stats["k"].(int)` type assertion on the map. -/
def lookupI (m : List (String × SValue)) (k : String) : Int :=
  match m.lookup k with
  | some (.int n) => n
  | _ => 0

/-! ## Process state, environment oracles, and the `GoM` monad -/

/-- One directory entry of `ioutil.ReadDir(".")`. -/
structure DirEntry where
  name : String
  isDir : Bool
deriving DecidableEq

/-- The external command record built by `exec.Command` plus the
stream-forwarding assignments (`cmd.Stdout = os.Stdout`,
`cmd.Stderr = os.Stderr`).  Go stores the binary name as `Args[0]`. -/
structure GoCommand where
  path : String
  args : List String
  stdoutToTerminal : Bool
  stderrToTerminal : Bool
deriving DecidableEq

/-- Console (stdout via `fmt`, stderr via `log`) events.  Each
constructor stands for one fixed diagnostic or prompt string of
`run.go`; OS-supplied error text is not repeated here. -/
inductive ConsoleMsg where
  | cannotCreateDir (dir : String)
  | cannotOpenLog
  | cannotWriteLog
  | cannotReadDir
  | noJmxFound
  | fileList (files : List String)
  | promptSelect
  | invalidChoice (raw : String)
  | promptResult
  | autoResultName (name : String)
  | promptReport
  | autoReportName (folder : String)
  | reportPath (path : String)
  | promptDebug
  | autoDebugName (name : String)
  | execCommand (args : List String)
  | execFailed
deriving DecidableEq

/-- The mutable world the program touches: which directories exist, the
debug-log file content, console output so far, and the commands handed
to the OS. -/
structure RunState where
  dirs : List String
  log : String
  console : List ConsoleMsg
  spawned : List GoCommand

/-- Everything the OS and the operator feed the program, fixed up front:
clock, filesystem answers, console input lines, and the external tool's
behaviour.  `durFmt` stands for `fmt.Sprintf("%.2f", elapsed)` whose
floating-point input is outside this model. -/
structure Env where
  now : DateTime
  mkdirOk : String → Bool
  openLogOk : Bool
  writeOk : Bool
  readDir : Option (List DirEntry)
  readDirErrMsg : String
  choiceInput : String
  resultInput : String
  reportInput : String
  debugInput : String
  readFile : String → Except String String
  xmlParse : String → Option XNode
  xmlErrMsg : String
  jsonParse : String → Option JValue
  jmeterOk : Bool
  jmeterErrMsg : String
  durFmt : String
  fmtF2 : ℚ → String

/-- State-threading computation that can terminate the whole process
(`os.Exit` / `log.Fatalf`) with an exit code. -/
def GoM (α : Type) : Type := RunState → Except (Nat × RunState) (α × RunState)

def GoM.pure (a : α) : GoM α := fun st => .ok (a, st)

def GoM.bind (m : GoM α) (f : α → GoM β) : GoM β := fun st =>
  match m st with
  | .error e => .error e
  | .ok (a, st') => f a st'

instance : Monad GoM where
  pure := GoM.pure
  bind := GoM.bind

@[simp] theorem GoM.bind_apply (m : GoM α) (f : α → GoM β) (st : RunState) :
    (m >>= f) st =
      match m st with
      | .error e => .error e
      | .ok (a, st') => f a st' := rfl

@[simp] theorem GoM.pure_apply (a : α) (st : RunState) :
    (Pure.pure a : GoM α) st = .ok (a, st) := rfl

/-- Append a console event. -/
def emit (m : ConsoleMsg) : GoM Unit := fun st =>
  .ok ((), { st with console := st.console ++ [m] })

/-- Record a spawned external command. -/
def spawn (c : GoCommand) : GoM Unit := fun st =>
  .ok ((), { st with spawned := st.spawned ++ [c] })

/-- Terminate the process (`os.Exit(code)`). -/
def goExit (code : Nat) : GoM α := fun st => .error (code, st)

/-! ## The program functions of `run.go` -/

/-- The `ensureDir` from `run.go`: create the directory if missing; on
`MkdirAll` failure `log.Fatalf` prints the diagnostic and terminates the
process with exit status 1. -/
def ensureDir (env : Env) (dir : String) : GoM Unit := fun st =>
  if st.dirs.contains dir then .ok ((), st)
  else if env.mkdirOk dir then .ok ((), { st with dirs := st.dirs ++ [dir] })
  else .error (1, { st with console := st.console ++ [.cannotCreateDir dir] })

/-- The line `fmt.Sprintf("[%s] %s\n", timestamp, msg)` appended by
`writeLog`. -/
def logLine (t : DateTime) (msg : String) : String :=
  "[" ++ fmtLogTime t ++ "] " ++ msg ++ "\n"

/-- The `writeLog` from `run.go`: ensure the debug directory, open the log
file in append mode, and append one timestamped line; open and write
failures are reported to the console and swallowed. -/
def writeLog (env : Env) (msg : String) : GoM Unit :=
  ensureDir env debugDir >>= fun _ => fun st =>
    if env.openLogOk then
      if env.writeOk then
        .ok ((), { st with log := st.log ++ logLine env.now msg })
      else .ok ((), { st with console := st.console ++ [.cannotWriteLog] })
    else .ok ((), { st with console := st.console ++ [.cannotOpenLog] })

/-- Run `writeLog` on each message in order (used for the log messages
collected by `parseThreadCountCore`). -/
def writeLogAll (env : Env) : List String → GoM Unit
  | [] => pure ()
  | m :: ms => writeLog env m >>= fun _ => writeLogAll env ms

/-- The selection condition of the `listJMXFiles` loop:
`!file.IsDir() && strings.HasSuffix(file.Name(), ".jmx")`. -/
def jmxPred (f : DirEntry) : Bool :=
  !f.isDir && goHasSuffix f.name ".jmx"

/-- The `listJMXFiles` from `run.go`: list the working directory, keep the
names of non-directory entries ending in `.jmx` (in listing order); a
listing failure or an empty result is logged, printed, and exits the
process with status 1. -/
def listJMXFiles (env : Env) : GoM (List String) :=
  match env.readDir with
  | none => do
    writeLog env ("读取目录失败: " ++ env.readDirErrMsg)
    emit .cannotReadDir
    goExit 1
  | some files =>
    let jmxFiles := files.foldl
      (fun acc f => if jmxPred f then acc ++ [f.name] else acc) []
    if jmxFiles = [] then do
      writeLog env "未找到 .jmx 文件，程序退出。"
      emit .noJmxFound
      goExit 1
    else do
      emit (.fileList jmxFiles)
      pure jmxFiles

/-- The `selectJMXFile` from `run.go`: parse the input line with
`strconv.Atoi`; a parse failure or a 1-based index out of range is
logged, printed, and exits with status 1; otherwise return the chosen
file name. -/
def selectJMXFile (env : Env) (jmxFiles : List String) : GoM String := do
  emit .promptSelect
  match goAtoi env.choiceInput with
  | none => do
    writeLog env ("无效的文件编号输入：" ++ env.choiceInput ++ "，程序退出。")
    emit (.invalidChoice env.choiceInput)
    goExit 1
  | some index =>
    if index < 1 ∨ index > (jmxFiles.length : Int) then do
      writeLog env ("无效的文件编号输入：" ++ env.choiceInput ++ "，程序退出。")
      emit (.invalidChoice env.choiceInput)
      goExit 1
    else
      pure (jmxFiles.getD ((index - 1).toNat) "")

/-- The pure result-path computation of `getResultFilename`: trim the
input; blank input becomes `result_<timestamp>.jtl`, a missing `.jtl`
suffix is appended, and the name is joined under `Jtl`. -/
def getResultFilenameCore (ts input : String) : String :=
  let name := goTrimSpace input
  let name :=
    if name = "" then "result_" ++ ts ++ ".jtl"
    else if !(goHasSuffix name ".jtl") then name ++ ".jtl"
    else name
  goJoin jtlDir name

/-- The `getResultFilename` from `run.go` (prompt and console echo around
the pure core). -/
def getResultFilename (env : Env) : GoM String := do
  emit .promptResult
  if goTrimSpace env.resultInput = "" then do
    emit (.autoResultName ("result_" ++ getTimestamp env.now ++ ".jtl"))
    pure (getResultFilenameCore (getTimestamp env.now) env.resultInput)
  else
    pure (getResultFilenameCore (getTimestamp env.now) env.resultInput)

/-- The `getReportFolder` from `run.go`: blank input becomes
`report_<timestamp>`; the folder is joined under `Reporter` and created
immediately (so a creation failure terminates the process). -/
def getReportFolder (env : Env) : GoM String := do
  emit .promptReport
  let trimmed := goTrimSpace env.reportInput
  if trimmed = "" then do
    let folder := "report_" ++ getTimestamp env.now
    emit (.autoReportName folder)
    let fullPath := goJoin reportDir folder
    ensureDir env fullPath
    emit (.reportPath fullPath)
    pure fullPath
  else do
    let fullPath := goJoin reportDir trimmed
    ensureDir env fullPath
    emit (.reportPath fullPath)
    pure fullPath

/-- The `getRDebugFilename` from `run.go`: blank input becomes
`Debug_<timestamp>.log`, a missing `.log` suffix is appended, and the
name is joined under `Debug`. -/
def getRDebugFilename (env : Env) : GoM String := do
  emit .promptDebug
  let name := goTrimSpace env.debugInput
  if name = "" then do
    let gen := "Debug_" ++ getTimestamp env.now ++ ".log"
    emit (.autoDebugName gen)
    pure (goJoin debugDir gen)
  else if !(goHasSuffix name ".log") then
    pure (goJoin debugDir (name ++ ".log"))
  else
    pure (goJoin debugDir name)

/-- The `parseThreadCount` from `run.go` with its `writeLog` side effects. -/
def parseThreadCount (env : Env) (jmxFile : String) : GoM Int := do
  let r := parseThreadCountCore (env.readFile jmxFile) env.xmlParse env.xmlErrMsg
  writeLogAll env r.2
  pure r.1

/-- Pretty-printing of a surfaced statistics error (`%v` on the Go
error value). -/
def jerrMsg : JError → String
  | .readErr e => e
  | .malformed => "invalid JSON syntax"
  | .typeErr e => e

/-- The command built by
`exec.Command("jmeter", "-n", "-t", jmxFile, "-l", resultFile, "-e",
"-o", reportFolder, "-j", debugFile)` with both streams forwarded to the
terminal. -/
def jmeterCommand (jmxFile resultFile reportFolder debugFile : String) : GoCommand :=
  { path := "jmeter",
    args := ["jmeter", "-n", "-t", jmxFile, "-l", resultFile,
             "-e", "-o", reportFolder, "-j", debugFile],
    stdoutToTerminal := true,
    stderrToTerminal := true }

/-- The `runJMeter` from `run.go`: log and spawn the command; on failure log
and print and return (never exit); on success log, then extract the
thread count and statistics and log either the formatted block or the
parse failure. -/
def runJMeter (env : Env) (jmxFile resultFile reportFolder debugFile : String) :
    GoM Unit := do
  let cmd := jmeterCommand jmxFile resultFile reportFolder debugFile
  writeLog env "开始执行命令："
  writeLog env (String.intercalate " " cmd.args)
  emit (.execCommand cmd.args)
  spawn cmd
  if env.jmeterOk then do
    writeLog env ("命令执行成功，耗时 " ++ env.durFmt ++ " 秒。")
    let threadCount ← parseThreadCount env jmxFile
    match parseStatistics env.readFile env.jsonParse reportFolder with
    | .ok stats => do
      writeLog env "====== 测试统计信息 ======"
      writeLog env ("线程数：" ++ toString threadCount)
      writeLog env ("报错率：" ++ env.fmtF2 (lookupQ stats "errorPct") ++ "%")
      writeLog env ("吞吐量：" ++ env.fmtF2 (lookupQ stats "throughput"))
      writeLog env ("响应时间：" ++ env.fmtF2 (lookupQ stats "meanResTime") ++ " ms")
      writeLog env ("总请求数：" ++ toString (lookupI stats "sampleCount"))
      writeLog env ("总错误数：" ++ toString (lookupI stats "Errorcount"))
      writeLog env "=========================="
    | .error e =>
      writeLog env ("解析统计数据失败: " ++ jerrMsg e)
  else do
    writeLog env ("命令执行失败，耗时 " ++ env.durFmt ++ " 秒。错误: " ++ env.jmeterErrMsg)
    emit .execFailed

/-- The `main` from `run.go` (named `mainGo` because `main` is reserved for
executables in Lean). -/
def mainGo (env : Env) : GoM Unit := do
  ensureDir env reportDir
  ensureDir env jtlDir
  ensureDir env debugDir
  let jmxFiles ← listJMXFiles env
  let jmxFile ← selectJMXFile env jmxFiles
  let resultFile ← getResultFilename env
  let reportFolder ← getReportFolder env
  let debugFile ← getRDebugFilename env
  runJMeter env jmxFile resultFile reportFolder debugFile

/-- The empty initial world. -/
def initState : RunState := ⟨[], "", [], []⟩

/-- The final process exit status of one run: 1 when an `os.Exit(1)` or
`log.Fatalf` path was taken, 0 on normal completion. -/
def exitCode (env : Env) (st : RunState) : Nat :=
  match mainGo env st with
  | .error e => e.1
  | .ok _ => 0

/-! ## Stepping lemmas -/

@[simp] theorem emit_apply (m : ConsoleMsg) (st : RunState) :
    emit m st = .ok ((), { st with console := st.console ++ [m] }) := rfl

@[simp] theorem spawn_apply (c : GoCommand) (st : RunState) :
    spawn c st = .ok ((), { st with spawned := st.spawned ++ [c] }) := rfl

@[simp] theorem goExit_apply (code : Nat) (st : RunState) :
    (goExit code : GoM α) st = .error (code, st) := rfl

/-- The state transformation `writeLog` performs once the debug
directory exists. -/
def writeLogStep (env : Env) (msg : String) (st : RunState) : RunState :=
  if env.openLogOk then
    if env.writeOk then { st with log := st.log ++ logLine env.now msg }
    else { st with console := st.console ++ [.cannotWriteLog] }
  else { st with console := st.console ++ [.cannotOpenLog] }

@[simp] theorem writeLog_apply (env : Env) (msg : String) (st : RunState)
    (h : st.dirs.contains debugDir = true) :
    writeLog env msg st = .ok ((), writeLogStep env msg st) := by
  have h' : debugDir ∈ st.dirs := by simpa using h
  unfold writeLog ensureDir writeLogStep
  simp [h']
  split_ifs <;> rfl

@[simp] theorem writeLogStep_dirs (env : Env) (msg : String) (st : RunState) :
    (writeLogStep env msg st).dirs = st.dirs := by
  unfold writeLogStep; split_ifs <;> rfl

@[simp] theorem writeLogStep_spawned (env : Env) (msg : String) (st : RunState) :
    (writeLogStep env msg st).spawned = st.spawned := by
  unfold writeLogStep; split_ifs <;> rfl

theorem writeLogStep_log (env : Env) (msg : String) (st : RunState) :
    (writeLogStep env msg st).log =
      st.log ++ (if env.openLogOk = true ∧ env.writeOk = true then logLine env.now msg else "") := by
  unfold writeLogStep
  split_ifs with h1 h2 <;> simp_all

/-- Iterated `writeLogStep`. -/
def writeLogSteps (env : Env) (ms : List String) (st : RunState) : RunState :=
  ms.foldl (fun s m => writeLogStep env m s) st

@[simp] theorem writeLogSteps_dirs (env : Env) (ms : List String) (st : RunState) :
    (writeLogSteps env ms st).dirs = st.dirs := by
  induction ms generalizing st with
  | nil => rfl
  | cons m ms ih => simp [writeLogSteps] at ih ⊢; rw [ih]; simp

@[simp] theorem writeLogSteps_spawned (env : Env) (ms : List String) (st : RunState) :
    (writeLogSteps env ms st).spawned = st.spawned := by
  induction ms generalizing st with
  | nil => rfl
  | cons m ms ih => simp [writeLogSteps] at ih ⊢; rw [ih]; simp

@[simp] theorem writeLogAll_apply (env : Env) (ms : List String) (st : RunState)
    (h : st.dirs.contains debugDir = true) :
    writeLogAll env ms st = .ok ((), writeLogSteps env ms st) := by
  induction ms generalizing st with
  | nil => rfl
  | cons m ms ih =>
    have h2 : (writeLogStep env m st).dirs.contains debugDir = true := by
      rw [writeLogStep_dirs]; exact h
    unfold writeLogAll
    simp [writeLog_apply _ _ _ h, ih _ h2, writeLogSteps]

/-- The `writeLog_apply` with the directory hypothesis in membership form
(the form `simp` can discharge when chaining). -/
theorem writeLog_apply_mem (env : Env) (msg : String) (st : RunState)
    (h : debugDir ∈ st.dirs) :
    writeLog env msg st = .ok ((), writeLogStep env msg st) :=
  writeLog_apply env msg st (by simpa using h)

/-- The `writeLogAll_apply` with the directory hypothesis in membership form. -/
theorem writeLogAll_apply_mem (env : Env) (ms : List String) (st : RunState)
    (h : debugDir ∈ st.dirs) :
    writeLogAll env ms st = .ok ((), writeLogSteps env ms st) :=
  writeLogAll_apply env ms st (by simpa using h)

/-- Once the debug directory exists, `runJMeter` always returns normally
(never raises the exit status), spawns exactly one command — the
`jmeter` invocation — and does not change the set of directories. -/
theorem runJMeter_total (env : Env) (st : RunState)
    (jmxFile resultFile reportFolder debugFile : String)
    (hdir : debugDir ∈ st.dirs) :
    ∃ st', runJMeter env jmxFile resultFile reportFolder debugFile st = .ok ((), st') ∧
      st'.spawned = st.spawned ++ [jmeterCommand jmxFile resultFile reportFolder debugFile] ∧
      st'.dirs = st.dirs := by
  unfold runJMeter parseThreadCount
  cases hj : env.jmeterOk with
  | false =>
    simp (disch := simp [hdir]) only [writeLog_apply_mem, writeLogAll_apply_mem,
      GoM.bind_apply, GoM.pure_apply, emit_apply, spawn_apply,
      writeLogStep_dirs, writeLogSteps_dirs, hj, Bool.false_eq_true, if_false]
    exact ⟨_, rfl, by simp, by simp⟩
  | true =>
    cases hps : parseStatistics env.readFile env.jsonParse reportFolder with
    | error e =>
      simp (disch := simp [hdir]) only [writeLog_apply_mem, writeLogAll_apply_mem,
        GoM.bind_apply, GoM.pure_apply, emit_apply, spawn_apply,
        writeLogStep_dirs, writeLogSteps_dirs, hj, if_true, hps]
      exact ⟨_, rfl, by simp, by simp⟩
    | ok stats =>
      simp (disch := simp [hdir]) only [writeLog_apply_mem, writeLogAll_apply_mem,
        GoM.bind_apply, GoM.pure_apply, emit_apply, spawn_apply,
        writeLogStep_dirs, writeLogSteps_dirs, hj, if_true, hps]
      exact ⟨_, rfl, by simp, by simp⟩

/-! ## Characterizations of the remaining components -/

/-- The declarative description of the scanner result: the names of the
non-directory `.jmx` entries, in listing order. -/
def jmxNames (files : List DirEntry) : List String :=
  (files.filter jmxPred).map DirEntry.name

/-- The accumulator loop of `listJMXFiles` computes `jmxNames`. -/
theorem jmx_foldl_eq (files : List DirEntry) (acc : List String) :
    files.foldl (fun acc f => if jmxPred f then acc ++ [f.name] else acc) acc =
      acc ++ jmxNames files := by
  induction files generalizing acc with
  | nil => simp [jmxNames]
  | cons f fs ih =>
    cases h : jmxPred f <;> simp [jmxNames, List.filter_cons, h, ih]

theorem ensureDir_mem (env : Env) (dir : String) (st : RunState)
    (h : dir ∈ st.dirs) : ensureDir env dir st = .ok ((), st) := by
  unfold ensureDir
  simp [h]

theorem ensureDir_mk (env : Env) (dir : String) (st : RunState)
    (h : dir ∉ st.dirs) (hm : env.mkdirOk dir = true) :
    ensureDir env dir st = .ok ((), { st with dirs := st.dirs ++ [dir] }) := by
  unfold ensureDir
  simp [h, hm]

theorem ensureDir_fatal (env : Env) (dir : String) (st : RunState)
    (h : dir ∉ st.dirs) (hm : env.mkdirOk dir = false) :
    ensureDir env dir st =
      .error (1, { st with console := st.console ++ [.cannotCreateDir dir] }) := by
  unfold ensureDir
  simp [h, hm]

/-- The `ensureDir` succeeds whenever creation would succeed, growing the
directory set and touching nothing else. -/
theorem ensureDir_ok (env : Env) (dir : String) (st : RunState)
    (hm : env.mkdirOk dir = true) :
    ∃ st', ensureDir env dir st = .ok ((), st') ∧
      st.dirs ⊆ st'.dirs ∧ dir ∈ st'.dirs ∧
      st'.log = st.log ∧ st'.spawned = st.spawned := by
  by_cases h : dir ∈ st.dirs
  · exact ⟨st, ensureDir_mem env dir st h, by simp, h, rfl, rfl⟩
  · refine ⟨_, ensureDir_mk env dir st h hm, ?_, ?_, rfl, rfl⟩
    · intro x hx; simp [hx]
    · simp

/-- The `listJMXFiles` on a successful, non-empty scan. -/
theorem listJMXFiles_ok (env : Env) (st : RunState)
    (entries : List DirEntry)
    (he : env.readDir = some entries) (hne : jmxNames entries ≠ []) :
    listJMXFiles env st =
      .ok (jmxNames entries, { st with console := st.console ++ [.fileList (jmxNames entries)] }) := by
  unfold listJMXFiles
  rw [he]
  simp only [jmx_foldl_eq, List.nil_append]
  simp [hne]

/-- The `listJMXFiles` on a failed listing: the failure is logged (when the
log is writable), reported, and the process exits with status 1. -/
theorem listJMXFiles_fail_read (env : Env) (st : RunState)
    (hdir : debugDir ∈ st.dirs) (he : env.readDir = none) :
    listJMXFiles env st =
      .error (1, { writeLogStep env ("读取目录失败: " ++ env.readDirErrMsg) st with
        console := (writeLogStep env ("读取目录失败: " ++ env.readDirErrMsg) st).console ++
          [.cannotReadDir] }) := by
  unfold listJMXFiles
  rw [he]
  simp (disch := simp [hdir]) only [writeLog_apply_mem, GoM.bind_apply, emit_apply,
    goExit_apply]

/-- The `listJMXFiles` on an empty filter result: logged, reported, exit 1. -/
theorem listJMXFiles_fail_empty (env : Env) (st : RunState)
    (hdir : debugDir ∈ st.dirs) (entries : List DirEntry)
    (he : env.readDir = some entries) (hemp : jmxNames entries = []) :
    listJMXFiles env st =
      .error (1, { writeLogStep env "未找到 .jmx 文件，程序退出。" st with
        console := (writeLogStep env "未找到 .jmx 文件，程序退出。" st).console ++
          [.noJmxFound] }) := by
  unfold listJMXFiles
  rw [he]
  simp only [jmx_foldl_eq, List.nil_append, hemp]
  simp (disch := simp [hdir]) only [writeLog_apply_mem, GoM.bind_apply, emit_apply,
    goExit_apply, if_pos]

/-- The `selectJMXFile` on a parsable, in-range 1-based index returns the
file at that position and touches nothing but the console. -/
theorem selectJMXFile_ok (env : Env) (st : RunState) (files : List String)
    (i : Int) (hp : goAtoi env.choiceInput = some i)
    (hlo : 1 ≤ i) (hhi : i ≤ (files.length : Int)) :
    selectJMXFile env files st =
      .ok (files.getD (i - 1).toNat "",
        { st with console := st.console ++ [.promptSelect] }) := by
  have hcond : ¬(i < 1 ∨ i > (files.length : Int)) := by omega
  unfold selectJMXFile
  simp [hp, hcond]

/-- The `selectJMXFile` on unparsable input or an out-of-range index: the
condition is logged (when the log is writable), echoed on the console,
and the process exits with status 1. -/
theorem selectJMXFile_fatal (env : Env) (st : RunState) (files : List String)
    (hdir : debugDir ∈ st.dirs)
    (h : goAtoi env.choiceInput = none ∨
      ∃ i, goAtoi env.choiceInput = some i ∧ (i < 1 ∨ i > (files.length : Int))) :
    ∃ st', selectJMXFile env files st = .error (1, st') ∧
      ConsoleMsg.invalidChoice env.choiceInput ∈ st'.console ∧
      (env.openLogOk = true → env.writeOk = true →
        st'.log = st.log ++
          logLine env.now ("无效的文件编号输入：" ++ env.choiceInput ++ "，程序退出。")) := by
  unfold selectJMXFile
  rcases h with hnone | ⟨i, hi, hrange⟩
  · simp (disch := simp [hdir]) only [writeLog_apply_mem, GoM.bind_apply, emit_apply,
      goExit_apply, hnone]
    refine ⟨_, rfl, by simp, ?_⟩
    intro ho hw
    rw [writeLogStep_log]
    simp [ho, hw]
  · have hcond : i < 1 ∨ i > (files.length : Int) := hrange
    simp (disch := simp [hdir]) only [writeLog_apply_mem, GoM.bind_apply, emit_apply,
      goExit_apply, hi, if_pos hcond]
    refine ⟨_, rfl, by simp, ?_⟩
    intro ho hw
    rw [writeLogStep_log]
    simp [ho, hw]

/-- The `getResultFilename` never exits and returns the pure core value. -/
theorem getResultFilename_ok (env : Env) (st : RunState) :
    ∃ st', getResultFilename env st =
        .ok (getResultFilenameCore (getTimestamp env.now) env.resultInput, st') ∧
      st'.dirs = st.dirs ∧ st'.log = st.log ∧ st'.spawned = st.spawned := by
  unfold getResultFilename
  by_cases h : goTrimSpace env.resultInput = "" <;> simp [h]

/-- The `getRDebugFilename` never exits. -/
theorem getRDebugFilename_ok (env : Env) (st : RunState) :
    ∃ v st', getRDebugFilename env st = .ok (v, st') ∧
      st'.dirs = st.dirs ∧ st'.log = st.log ∧ st'.spawned = st.spawned := by
  unfold getRDebugFilename
  by_cases h : goTrimSpace env.debugInput = ""
  · simp only [GoM.bind_apply, emit_apply, GoM.pure_apply, h, if_true, if_pos]
    exact ⟨_, _, rfl, rfl, rfl, rfl⟩
  · by_cases h2 : goHasSuffix (goTrimSpace env.debugInput) ".log" = true <;>
      simp only [GoM.bind_apply, emit_apply, GoM.pure_apply, h, h2, if_true, if_false,
        Bool.not_true, Bool.not_false, if_neg, Bool.false_eq_true] <;>
      exact ⟨_, _, rfl, rfl, rfl, rfl⟩

/-- Inversion for a successful `ensureDir`: the directory set only
grows and the log, spawn list, and console are untouched. -/
theorem ensureDir_ok_inv (env : Env) (dir : String) (s st1 : RunState) (a : Unit)
    (h : ensureDir env dir s = .ok (a, st1)) :
    s.dirs ⊆ st1.dirs ∧ st1.log = s.log ∧ st1.spawned = s.spawned ∧
      st1.console = s.console := by
  by_cases hd : dir ∈ s.dirs
  · rw [ensureDir_mem env dir s hd] at h
    simp only [Except.ok.injEq, Prod.mk.injEq] at h
    rcases h with ⟨-, h⟩
    subst h
    exact ⟨fun x hx => hx, rfl, rfl, rfl⟩
  · by_cases hm : env.mkdirOk dir = true
    · rw [ensureDir_mk env dir s hd hm] at h
      simp only [Except.ok.injEq, Prod.mk.injEq] at h
      rcases h with ⟨-, h⟩
      subst h
      exact ⟨fun x hx => by simp [hx], rfl, rfl, rfl⟩
    · rw [ensureDir_fatal env dir s hd (by simpa using hm)] at h
      simp at h

/-- The `getReportFolder` returns normally whenever directory creation
succeeds, only growing the directory set. -/
theorem getReportFolder_ok (env : Env) (st : RunState)
    (hm : ∀ d, env.mkdirOk d = true) :
    ∃ p st', getReportFolder env st = .ok (p, st') ∧
      st.dirs ⊆ st'.dirs ∧ st'.log = st.log ∧ st'.spawned = st.spawned := by
  unfold getReportFolder
  by_cases h : goTrimSpace env.reportInput = "" <;>
    simp only [GoM.bind_apply, emit_apply, GoM.pure_apply, h, if_true, if_false] <;>
    split
  case pos.h_1 e heq =>
    obtain ⟨st', e', -, -, -, -⟩ := ensureDir_ok env _ _ (hm _)
    rw [e'] at heq
    simp at heq
  case pos.h_2 a st1 heq =>
    obtain ⟨hsub, hlog, hsp, -⟩ := ensureDir_ok_inv env _ _ _ _ heq
    exact ⟨_, _, rfl, fun x hx => hsub (by simpa using hx), by simpa using hlog,
      by simpa using hsp⟩
  case neg.h_1 e heq =>
    obtain ⟨st', e', -, -, -, -⟩ := ensureDir_ok env _ _ (hm _)
    rw [e'] at heq
    simp at heq
  case neg.h_2 a st1 heq =>
    obtain ⟨hsub, hlog, hsp, -⟩ := ensureDir_ok_inv env _ _ _ _ heq
    exact ⟨_, _, rfl, fun x hx => hsub (by simpa using hx), by simpa using hlog,
      by simpa using hsp⟩

theorem getD_eq_get (l : List String) (n : Nat) (h : n < l.length) :
    l.getD n "" = l.get ⟨n, h⟩ := by
  induction l generalizing n with
  | nil => simp at h
  | cons a as ih =>
    cases n with
    | zero => rfl
    | succ n => exact ih n (by simpa using h)

/-! ## Concrete environments used by the witnesses -/

/-- A fully cooperative environment: every directory can be created, the
log is writable, the listing holds one selectable plan, and the external
tool succeeds. -/
def envHappy : Env :=
  { now := ⟨2025, 1, 1, 0, 0, 0⟩
    mkdirOk := fun _ => true
    openLogOk := true
    writeOk := true
    readDir := some [⟨"a.jmx", false⟩, ⟨"b.txt", false⟩, ⟨"c.jmx", true⟩]
    readDirErrMsg := "permission denied"
    choiceInput := "1"
    resultInput := ""
    reportInput := ""
    debugInput := ""
    readFile := fun _ => .error "no such file"
    xmlParse := fun _ => none
    xmlErrMsg := "unexpected EOF"
    jsonParse := fun _ => none
    jmeterOk := true
    jmeterErrMsg := "exit status 1"
    durFmt := "1.00"
    fmtF2 := fun _ => "0.00" }

/-- A state in which all three working directories already exist. -/
def stReady : RunState := ⟨[reportDir, jtlDir, debugDir], "", [], []⟩

/-! ## The claims -/

/-- C8: for every selected test-plan path, result-file path,
report-folder path and debug-file path, `runJMeter` hands the OS exactly
one command: the binary `jmeter` with the argument list
`-n -t <jmxFile> -l <resultFile> -e -o <reportFolder> -j <debugFile>` in
that order (Go stores the binary name as `Args[0]`), with stdout and
stderr forwarded to the invoking terminal. -/
theorem C8_runJMeter_command (env : Env) (st : RunState)
    (jmxFile resultFile reportFolder debugFile : String)
    (hdir : debugDir ∈ st.dirs) :
    ∃ st', runJMeter env jmxFile resultFile reportFolder debugFile st = .ok ((), st') ∧
      st'.spawned = st.spawned ++
        [{ path := "jmeter",
           args := ["jmeter", "-n", "-t", jmxFile, "-l", resultFile,
                    "-e", "-o", reportFolder, "-j", debugFile],
           stdoutToTerminal := true, stderrToTerminal := true }] := by
  obtain ⟨st', e, hsp, -⟩ := runJMeter_total env st jmxFile resultFile reportFolder debugFile hdir
  exact ⟨st', e, hsp⟩

/-- Witness for C8 at a concrete run. -/
theorem C8_runJMeter_command_witness :
    debugDir ∈ stReady.dirs ∧
    ∃ st', runJMeter envHappy "a.jmx" "r.jtl" "rep" "d.log" stReady = .ok ((), st') ∧
      st'.spawned = stReady.spawned ++
        [{ path := "jmeter",
           args := ["jmeter", "-n", "-t", "a.jmx", "-l", "r.jtl",
                    "-e", "-o", "rep", "-j", "d.log"],
           stdoutToTerminal := true, stderrToTerminal := true }] :=
  ⟨by simp [stReady], C8_runJMeter_command envHappy stReady "a.jmx" "r.jtl" "rep" "d.log"
    (by simp [stReady])⟩

/-- C4: on a readable working directory the scanner returns exactly the
names of the non-directory entries whose name ends in `.jmx`
(case-sensitively), in listing order; a failed listing or an empty
filtered result is logged, announced on the console, and terminates the
process with exit status 1. -/
theorem C4_scanner (env : Env) (st : RunState) (hdir : debugDir ∈ st.dirs) :
    (∀ entries, env.readDir = some entries →
      (entries.filter (fun f => !f.isDir && goHasSuffix f.name ".jmx")).map DirEntry.name ≠ [] →
      ∃ st', listJMXFiles env st =
        .ok ((entries.filter (fun f => !f.isDir && goHasSuffix f.name ".jmx")).map DirEntry.name, st')) ∧
    (env.readDir = none →
      ∃ st', listJMXFiles env st = .error (1, st') ∧
        ConsoleMsg.cannotReadDir ∈ st'.console ∧
        (env.openLogOk = true → env.writeOk = true →
          st'.log = st.log ++ logLine env.now ("读取目录失败: " ++ env.readDirErrMsg))) ∧
    (∀ entries, env.readDir = some entries →
      (entries.filter (fun f => !f.isDir && goHasSuffix f.name ".jmx")).map DirEntry.name = [] →
      ∃ st', listJMXFiles env st = .error (1, st') ∧
        ConsoleMsg.noJmxFound ∈ st'.console ∧
        (env.openLogOk = true → env.writeOk = true →
          st'.log = st.log ++ logLine env.now "未找到 .jmx 文件，程序退出。")) := by
  refine ⟨?_, ?_, ?_⟩
  · intro entries he hne
    exact ⟨_, listJMXFiles_ok env st entries he hne⟩
  · intro he
    refine ⟨_, listJMXFiles_fail_read env st hdir he, by simp, ?_⟩
    intro ho hw
    show (writeLogStep env _ st).log = _
    rw [writeLogStep_log]
    simp [ho, hw]
  · intro entries he hemp
    refine ⟨_, listJMXFiles_fail_empty env st hdir entries he hemp, by simp, ?_⟩
    intro ho hw
    show (writeLogStep env _ st).log = _
    rw [writeLogStep_log]
    simp [ho, hw]

/-- Witness for C4: a listing with a matching file, a non-matching
extension, a directory named like a plan, and an uppercase-suffix file
yields exactly the single lowercase `.jmx` regular file. -/
theorem C4_scanner_witness :
    (([⟨"a.jmx", false⟩, ⟨"b.txt", false⟩, ⟨"c.jmx", true⟩, ⟨"d.JMX", false⟩] :
        List DirEntry).filter (fun f => !f.isDir && goHasSuffix f.name ".jmx")).map
        DirEntry.name = ["a.jmx"] ∧
    ∃ st', listJMXFiles { envHappy with
        readDir := some [⟨"a.jmx", false⟩, ⟨"b.txt", false⟩, ⟨"c.jmx", true⟩, ⟨"d.JMX", false⟩] }
      stReady = .ok (["a.jmx"], st') := by
  refine ⟨by decide, ?_⟩
  obtain ⟨h1, -, -⟩ := C4_scanner { envHappy with
      readDir := some [⟨"a.jmx", false⟩, ⟨"b.txt", false⟩, ⟨"c.jmx", true⟩, ⟨"d.JMX", false⟩] }
    stReady (by simp [stReady])
  obtain ⟨st', e⟩ := h1 _ rfl (by decide)
  exact ⟨st', by simpa using e⟩

/-- C6: the selection input is parsed as a 1-based integer index; a
parse failure or an index outside `1..len` is logged, echoed on the
console, and exits the process with a non-zero status; otherwise the
file at that 1-based position is returned. -/
theorem C6_selection (env : Env) (st : RunState) (files : List String)
    (hdir : debugDir ∈ st.dirs) :
    (∀ i : Int, goAtoi env.choiceInput = some i → 1 ≤ i → i ≤ (files.length : Int) →
      ∃ st', ∃ h : (i - 1).toNat < files.length,
        selectJMXFile env files st = .ok (files.get ⟨(i - 1).toNat, h⟩, st')) ∧
    (goAtoi env.choiceInput = none →
      ∃ st', selectJMXFile env files st = .error (1, st') ∧
        ConsoleMsg.invalidChoice env.choiceInput ∈ st'.console ∧
        (env.openLogOk = true → env.writeOk = true →
          st'.log = st.log ++
            logLine env.now ("无效的文件编号输入：" ++ env.choiceInput ++ "，程序退出。"))) ∧
    (∀ i : Int, goAtoi env.choiceInput = some i → (i < 1 ∨ i > (files.length : Int)) →
      ∃ st', selectJMXFile env files st = .error (1, st') ∧
        ConsoleMsg.invalidChoice env.choiceInput ∈ st'.console ∧
        (env.openLogOk = true → env.writeOk = true →
          st'.log = st.log ++
            logLine env.now ("无效的文件编号输入：" ++ env.choiceInput ++ "，程序退出。"))) := by
  refine ⟨?_, ?_, ?_⟩
  · intro i hp hlo hhi
    have hlt : (i - 1).toNat < files.length := by omega
    refine ⟨{ st with console := st.console ++ [.promptSelect] }, hlt, ?_⟩
    rw [selectJMXFile_ok env st files i hp hlo hhi, getD_eq_get files _ hlt]
  · intro hnone
    obtain ⟨st', e, hc, hl⟩ := selectJMXFile_fatal env st files hdir (Or.inl hnone)
    exact ⟨st', e, hc, hl⟩
  · intro i hp hrange
    obtain ⟨st', e, hc, hl⟩ := selectJMXFile_fatal env st files hdir (Or.inr ⟨i, hp, hrange⟩)
    exact ⟨st', e, hc, hl⟩

/-- Witness for C6: input `"2"` over a two-element list selects the
second file. -/
theorem C6_selection_witness :
    goAtoi "2" = some 2 ∧
    ∃ st', ∃ h : (2 - 1 : Int).toNat < (["a.jmx", "b.jmx"] : List String).length,
      selectJMXFile { envHappy with choiceInput := "2" } ["a.jmx", "b.jmx"] stReady =
        .ok ((["a.jmx", "b.jmx"] : List String).get ⟨(2 - 1 : Int).toNat, h⟩, st') := by
  obtain ⟨h1, -, -⟩ := C6_selection { envHappy with choiceInput := "2" } stReady
    ["a.jmx", "b.jmx"] (by simp [stReady])
  exact ⟨by decide, h1 2 (by decide) (by decide) (by decide)⟩

@[simp] theorem string_data_append (a b : String) : (a ++ b).data = a.data ++ b.data := rfl

/-- C2 counterexample: when the debug directory is missing and cannot be
created, `writeLog` does not return normally — `ensureDir`'s
`log.Fatalf` terminates the process with exit status 1 (refuting the
claim that a failure inside `writeLog` never terminates the process). -/
theorem C2_writeLog_counterexample :
    writeLog { envHappy with mkdirOk := fun _ => false } "boot" initState =
      .error (1, ⟨[], "", [.cannotCreateDir "Debug"], []⟩) := rfl

/-- C2 (amended): a failure to open or to write the log file is reported
to the console and `writeLog` returns normally; but a failure to create
a missing log directory terminates the process with exit status 1 via
`log.Fatalf` (reporting the failure to the console first). -/
theorem C2_writeLog_failures (env : Env) (msg : String) (st : RunState) :
    (debugDir ∈ st.dirs ∨ env.mkdirOk debugDir = true →
      ∃ st', writeLog env msg st = .ok ((), st') ∧
        (env.openLogOk = false → ConsoleMsg.cannotOpenLog ∈ st'.console ∧ st'.log = st.log) ∧
        (env.openLogOk = true → env.writeOk = false →
          ConsoleMsg.cannotWriteLog ∈ st'.console ∧ st'.log = st.log)) ∧
    (debugDir ∉ st.dirs → env.mkdirOk debugDir = false →
      writeLog env msg st =
        .error (1, { st with console := st.console ++ [.cannotCreateDir debugDir] })) := by
  constructor
  · intro h
    have key : ∃ st1, ensureDir env debugDir st = .ok ((), st1) ∧
        st1.log = st.log ∧ st1.console = st.console := by
      by_cases hd : debugDir ∈ st.dirs
      · exact ⟨st, ensureDir_mem env debugDir st hd, rfl, rfl⟩
      · rcases h with hd2 | hmk
        · exact absurd hd2 hd
        · exact ⟨_, ensureDir_mk env debugDir st hd hmk, rfl, rfl⟩
    obtain ⟨st1, e1, hlog1, hcon1⟩ := key
    unfold writeLog
    simp only [GoM.bind_apply, e1]
    by_cases ho : env.openLogOk = true
    · by_cases hw : env.writeOk = true
      · refine ⟨{ st1 with log := st1.log ++ logLine env.now msg },
          by simp [ho, hw], by simp [ho], by simp [hw]⟩
      · have hw' : env.writeOk = false := by simpa using hw
        refine ⟨{ st1 with console := st1.console ++ [.cannotWriteLog] },
          by simp [ho, hw'], by simp [ho], fun _ _ => ⟨by simp, by simp [hlog1]⟩⟩
    · have ho' : env.openLogOk = false := by simpa using ho
      refine ⟨{ st1 with console := st1.console ++ [.cannotOpenLog] },
        by simp [ho'], fun _ => ⟨by simp, by simp [hlog1]⟩, by simp [ho']⟩
  · intro hd hmk
    unfold writeLog
    simp only [GoM.bind_apply, ensureDir_fatal env debugDir st hd hmk]

/-- Witness for C2 (amended): with the directory present but the file
unwritable, `writeLog` still returns normally and reports the failure. -/
theorem C2_writeLog_failures_witness :
    debugDir ∈ stReady.dirs ∧
    ∃ st', writeLog { envHappy with writeOk := false } "hello" stReady = .ok ((), st') ∧
      (ConsoleMsg.cannotWriteLog ∈ st'.console ∧ st'.log = stReady.log) := by
  obtain ⟨h1, -⟩ := C2_writeLog_failures { envHappy with writeOk := false } "hello" stReady
  obtain ⟨st', e, -, h3⟩ := h1 (Or.inl (by simp [stReady]))
  exact ⟨by simp [stReady], st', e, h3 rfl rfl⟩

/-- Closed-form description of `writeLog`. -/
theorem writeLog_eq (env : Env) (msg : String) (st : RunState) :
    writeLog env msg st =
      if debugDir ∈ st.dirs ∨ env.mkdirOk debugDir = true then
        .ok ((), writeLogStep env msg
          (if debugDir ∈ st.dirs then st else { st with dirs := st.dirs ++ [debugDir] }))
      else .error (1, { st with console := st.console ++ [.cannotCreateDir debugDir] }) := by
  by_cases hd : debugDir ∈ st.dirs
  · rw [writeLog_apply_mem env msg st hd]
    simp [hd]
  · by_cases hm : env.mkdirOk debugDir = true
    · unfold writeLog
      simp only [GoM.bind_apply, ensureDir_mk env debugDir st hd hm]
      simp [hd, hm]
      unfold writeLogStep
      split_ifs <;> rfl
    · unfold writeLog
      simp only [GoM.bind_apply, ensureDir_fatal env debugDir st hd (by simpa using hm)]
      simp [hd, hm]

theorem digitChar_mod_isDigit (n : Nat) : (Nat.digitChar (n % 10)).isDigit = true := by
  have h : n % 10 < 10 := Nat.mod_lt _ (by norm_num)
  set k := n % 10 with hk
  interval_cases k <;> decide

/-- The shape `YYYY-MM-DD HH:MM:SS`: 19 characters, separators at the
fixed positions, decimal digits everywhere else. -/
def timeShape (s : String) : Prop :=
  s.length = 19 ∧
  s.data.get? 4 = some '-' ∧ s.data.get? 7 = some '-' ∧ s.data.get? 10 = some ' ' ∧
  s.data.get? 13 = some ':' ∧ s.data.get? 16 = some ':' ∧
  ∀ i ∈ ([0, 1, 2, 3, 5, 6, 8, 9, 11, 12, 14, 15, 17, 18] : List Nat),
    ∃ c, s.data.get? i = some c ∧ c.isDigit = true

theorem fmtLogTime_data (t : DateTime) :
    (fmtLogTime t).data =
      [Nat.digitChar (t.year / 1000 % 10), Nat.digitChar (t.year / 100 % 10),
       Nat.digitChar (t.year / 10 % 10), Nat.digitChar (t.year % 10), '-',
       Nat.digitChar (t.month / 10 % 10), Nat.digitChar (t.month % 10), '-',
       Nat.digitChar (t.day / 10 % 10), Nat.digitChar (t.day % 10), ' ',
       Nat.digitChar (t.hour / 10 % 10), Nat.digitChar (t.hour % 10), ':',
       Nat.digitChar (t.minute / 10 % 10), Nat.digitChar (t.minute % 10), ':',
       Nat.digitChar (t.second / 10 % 10), Nat.digitChar (t.second % 10)] := rfl

theorem fmtLogTime_timeShape (t : DateTime) : timeShape (fmtLogTime t) := by
  refine ⟨?_, ?_, ?_, ?_, ?_, ?_, ?_⟩
  · show (fmtLogTime t).data.length = 19
    rw [fmtLogTime_data]
    rfl
  all_goals try (rw [fmtLogTime_data]; rfl)
  intro i hi
  rw [fmtLogTime_data]
  fin_cases hi <;> exact ⟨_, rfl, digitChar_mod_isDigit _⟩

/-- C9: `writeLog` only appends: whenever it returns, the previous log
content is a prefix of the new content, and in the success case exactly
the one line `[<timestamp>] <message>` followed by a newline is appended
at the end; on the fatal directory-creation path the file is untouched.
The timestamp has the `YYYY-MM-DD HH:MM:SS` shape.  Monotonic growth
across calls follows from the per-call prefix property. -/
theorem C9_writeLog_append_only (env : Env) (msg : String) (st : RunState) :
    (∀ st', writeLog env msg st = .ok ((), st') →
      (∃ t, st'.log = st.log ++ t) ∧
      (env.openLogOk = true → env.writeOk = true →
        st'.log = st.log ++ "[" ++ fmtLogTime env.now ++ "] " ++ msg ++ "\n")) ∧
    (∀ c st', writeLog env msg st = .error (c, st') → st'.log = st.log) ∧
    timeShape (fmtLogTime env.now) := by
  refine ⟨?_, ?_, fmtLogTime_timeShape env.now⟩
  · intro st' hok
    rw [writeLog_eq] at hok
    by_cases hcond : debugDir ∈ st.dirs ∨ env.mkdirOk debugDir = true
    · rw [if_pos hcond] at hok
      simp only [Except.ok.injEq, Prod.mk.injEq, true_and] at hok
      subst hok
      have hbase :
          (if debugDir ∈ st.dirs then st else { st with dirs := st.dirs ++ [debugDir] }).log
            = st.log := by
        split <;> rfl
      rw [writeLogStep_log, hbase]
      constructor
      · exact ⟨_, rfl⟩
      · intro ho hw
        simp only [ho, hw, and_self, if_true, logLine]
        simp [String.ext_iff]
    · rw [if_neg hcond] at hok
      simp at hok
  · intro c st' herr
    rw [writeLog_eq] at herr
    by_cases hcond : debugDir ∈ st.dirs ∨ env.mkdirOk debugDir = true
    · rw [if_pos hcond] at herr
      simp at herr
    · rw [if_neg hcond] at herr
      simp only [Except.error.injEq, Prod.mk.injEq] at herr
      rw [← herr.2]

/-- Witness for C9 at a concrete call. -/
theorem C9_writeLog_append_only_witness :
    ∃ st', writeLog envHappy "done" stReady = .ok ((), st') ∧
      st'.log = stReady.log ++ "[" ++ fmtLogTime envHappy.now ++ "] " ++ "done" ++ "\n" := by
  obtain ⟨h1, -, -⟩ := C9_writeLog_append_only envHappy "done" stReady
  have e : writeLog envHappy "done" stReady =
      .ok ((), writeLogStep envHappy "done" stReady) :=
    writeLog_apply_mem envHappy "done" stReady (by simp [stReady])
  obtain ⟨-, h2⟩ := h1 _ e
  exact ⟨_, e, h2 rfl rfl⟩

/-! ## C7: the thread-count extractor -/

mutual
theorem findThreadProp_sound (x : XNode) (node : XNode)
    (h : findThreadProp x = some node) :
    ∃ attrs cs, node = .elem "intProp" attrs cs ∧
      attrLookup attrs "name" = some "ThreadGroup.num_threads" := by
  cases x with
  | text s => simp [findThreadProp] at h
  | elem n attrs cs =>
    rw [findThreadProp] at h
    by_cases hc : n = "intProp" ∧ attrLookup attrs "name" = some "ThreadGroup.num_threads"
    · rw [if_pos hc] at h
      simp only [Option.some.injEq] at h
      exact ⟨attrs, cs, by rw [← h, hc.1], hc.2⟩
    · rw [if_neg hc] at h
      exact findThreadPropList_sound cs node h
theorem findThreadPropList_sound (xs : XNodes) (node : XNode)
    (h : findThreadPropList xs = some node) :
    ∃ attrs cs, node = .elem "intProp" attrs cs ∧
      attrLookup attrs "name" = some "ThreadGroup.num_threads" := by
  cases xs with
  | nil => simp [findThreadPropList] at h
  | cons x rest =>
    rw [findThreadPropList] at h
    cases hx : findThreadProp x with
    | some r =>
      rw [hx] at h
      simp only [Option.some.injEq] at h
      exact h ▸ findThreadProp_sound x r hx
    | none =>
      rw [hx] at h
      exact findThreadPropList_sound rest node h
end

/-- C7: if the plan file reads, parses as XML, and contains an `intProp`
element named `ThreadGroup.num_threads` whose text is a decimal integer
`n`, the extractor returns `n`; every failure — read error, XML parse
error, missing node, non-numeric text — instead yields `0` together with
one log message naming the cause.  The node found is always an `intProp`
element carrying that `name` attribute. -/
theorem C7_threadCount (readRes : Except String String)
    (parseXML : String → Option XNode) (xmlErrMsg : String) :
    (∀ e, readRes = .error e →
      parseThreadCountCore readRes parseXML xmlErrMsg = (0, ["读取JMX文件失败: " ++ e])) ∧
    (∀ data, readRes = .ok data → parseXML data = none →
      parseThreadCountCore readRes parseXML xmlErrMsg = (0, ["解析XML失败: " ++ xmlErrMsg])) ∧
    (∀ data doc, readRes = .ok data → parseXML data = some doc →
      findThreadProp doc = none →
      parseThreadCountCore readRes parseXML xmlErrMsg = (0, ["未找到线程数配置"])) ∧
    (∀ data doc node, readRes = .ok data → parseXML data = some doc →
      findThreadProp doc = some node → goAtoi (innerText node) = none →
      parseThreadCountCore readRes parseXML xmlErrMsg =
        (0, ["转换线程数失败: " ++ innerText node])) ∧
    (∀ data doc node n, readRes = .ok data → parseXML data = some doc →
      findThreadProp doc = some node → goAtoi (innerText node) = some n →
      parseThreadCountCore readRes parseXML xmlErrMsg = (n, []) ∧
        ∃ attrs cs, node = .elem "intProp" attrs cs ∧
          attrLookup attrs "name" = some "ThreadGroup.num_threads") := by
  refine ⟨?_, ?_, ?_, ?_, ?_⟩
  · intro e he; subst he; rfl
  · intro data hr hp; subst hr; simp [parseThreadCountCore, hp]
  · intro data doc hr hp hf; subst hr; simp [parseThreadCountCore, hp, hf]
  · intro data doc node hr hp hf ha; subst hr; simp [parseThreadCountCore, hp, hf, ha]
  · intro data doc node n hr hp hf ha
    subst hr
    exact ⟨by simp [parseThreadCountCore, hp, hf, ha], findThreadProp_sound doc node hf⟩

/-- The spec's example document: a plan containing
`<intProp name="ThreadGroup.num_threads">7</intProp>`. -/
def docSeven : XNode :=
  .elem "jmeterTestPlan" []
    (.cons (.elem "intProp" [("name", "ThreadGroup.num_threads")] (.cons (.text "7") .nil))
      .nil)

/-- A document with no thread-count property. -/
def docBare : XNode := .elem "jmeterTestPlan" [] (.cons (.text "hello") .nil)

/-- Witness for C7: the spec's example yields `7`; a document lacking
the node yields `0` with the not-found log message. -/
theorem C7_threadCount_witness :
    parseThreadCountCore (.ok "<plan>") (fun _ => some docSeven) "" = (7, []) ∧
    parseThreadCountCore (.ok "<plan>") (fun _ => some docBare) "" =
      (0, ["未找到线程数配置"]) := by
  constructor
  · obtain ⟨-, -, -, -, h5⟩ := C7_threadCount (.ok "<plan>") (fun _ => some docSeven) ""
    exact (h5 "<plan>" docSeven
      (.elem "intProp" [("name", "ThreadGroup.num_threads")] (.cons (.text "7") .nil)) 7
      rfl rfl rfl rfl).1
  · obtain ⟨-, -, h3, -, -⟩ := C7_threadCount (.ok "<plan>") (fun _ => some docBare) ""
    exact h3 "<plan>" docBare rfl rfl rfl

/-! ## C1 and C10: the statistics reader -/

theorem decodeTotalField_sampleCount (acc : TotalStats) (l : String) (n : Int)
    (h : goAtoi l = some n) :
    decodeTotalField acc "sampleCount" (.num l) = .ok { acc with sampleCount := n } := by
  have ht : totalFieldOf "sampleCount" = some .sampleCount := rfl
  simp [decodeTotalField, ht, h]

theorem decodeTotalField_errorPct (acc : TotalStats) (l : String) (q : ℚ)
    (h : parseDec l = some q) :
    decodeTotalField acc "errorPct" (.num l) = .ok { acc with errorPct := q } := by
  have ht : totalFieldOf "errorPct" = some .errorPct := rfl
  simp [decodeTotalField, ht, h]

theorem decodeTotalField_meanResTime (acc : TotalStats) (l : String) (q : ℚ)
    (h : parseDec l = some q) :
    decodeTotalField acc "meanResTime" (.num l) = .ok { acc with meanResTime := q } := by
  have ht : totalFieldOf "meanResTime" = some .meanResTime := rfl
  simp [decodeTotalField, ht, h]

theorem decodeTotalField_throughput (acc : TotalStats) (l : String) (q : ℚ)
    (h : parseDec l = some q) :
    decodeTotalField acc "throughput" (.num l) = .ok { acc with throughput := q } := by
  have ht : totalFieldOf "throughput" = some .throughput := rfl
  simp [decodeTotalField, ht, h]

theorem decodeTotalField_errorCount (acc : TotalStats) (l : String) (n : Int)
    (h : goAtoi l = some n) :
    decodeTotalField acc "errorCount" (.num l) = .ok { acc with errorcount := n } := by
  have ht : totalFieldOf "errorCount" = some .errorCount := rfl
  simp [decodeTotalField, ht, h]

/-- Decoding a `Total` object holding exactly the five numeric fields in
the canonical order. -/
theorem decodeTotal_five (l1 l2 l3 l4 l5 : String) (n1 : Int) (q2 q3 q4 : ℚ) (n5 : Int)
    (h1 : goAtoi l1 = some n1) (h2 : parseDec l2 = some q2) (h3 : parseDec l3 = some q3)
    (h4 : parseDec l4 = some q4) (h5 : goAtoi l5 = some n5) :
    decodeTotal zeroTotal
      (.obj [("sampleCount", .num l1), ("errorPct", .num l2), ("meanResTime", .num l3),
             ("throughput", .num l4), ("errorCount", .num l5)]) =
      .ok ⟨n1, q2, q3, q4, n5⟩ := by
  simp only [decodeTotal, List.foldlM,
    decodeTotalField_sampleCount _ _ _ h1, decodeTotalField_errorPct _ _ _ h2,
    decodeTotalField_meanResTime _ _ _ h3, decodeTotalField_throughput _ _ _ h4,
    decodeTotalField_errorCount _ _ _ h5]
  rfl

theorem decodeTotalField_skip (acc : TotalStats) (k : String) (v : JValue)
    (h : totalFieldOf k = none) : decodeTotalField acc k v = .ok acc := by
  simp [decodeTotalField, h]

theorem foldTotalFields_skip (tkvs : List (String × JValue)) (acc : TotalStats)
    (h : ∀ p ∈ tkvs, totalFieldOf p.1 = none) :
    List.foldlM (fun a kv => decodeTotalField a kv.1 kv.2) acc tkvs = .ok acc := by
  induction tkvs generalizing acc with
  | nil => rfl
  | cons p rest ih =>
    simp only [List.foldlM, decodeTotalField_skip acc p.1 p.2 (h p (by simp))]
    exact ih acc (fun q hq => h q (by simp [hq]))

theorem foldStatistics_skip (kvs : List (String × JValue)) (acc : TotalStats)
    (h : ∀ p ∈ kvs, eqFold p.1 "Total" = false) :
    List.foldlM (fun a kv => if eqFold kv.1 "Total" then decodeTotal a kv.2 else .ok a)
      acc kvs = .ok acc := by
  induction kvs generalizing acc with
  | nil => rfl
  | cons p rest ih =>
    simp only [List.foldlM, h p (by simp), Bool.false_eq_true, if_false]
    exact ih acc (fun q hq => h q (by simp [hq]))

/-- C1 (amended): a read failure or malformed JSON is surfaced as an
error; a document whose `Total` object carries the five numeric fields
yields a map holding exactly those five values — keyed `sampleCount`,
`errorPct`, `meanResTime`, `throughput`, and `Errorcount` (the Go map
key for the error count, not the JSON tag `errorCount`). -/
theorem C1_parseStatistics (readFile : String → Except String String)
    (jsonParse : String → Option JValue) (reportFolder : String) :
    (∀ e, readFile (goJoin reportFolder "statistics.json") = .error e →
      parseStatistics readFile jsonParse reportFolder = .error (.readErr e)) ∧
    (∀ data, readFile (goJoin reportFolder "statistics.json") = .ok data →
      jsonParse data = none →
      parseStatistics readFile jsonParse reportFolder = .error .malformed) ∧
    (∀ data l1 l2 l3 l4 l5 (n1 : Int) (q2 q3 q4 : ℚ) (n5 : Int),
      readFile (goJoin reportFolder "statistics.json") = .ok data →
      jsonParse data = some (.obj [("Total",
        .obj [("sampleCount", .num l1), ("errorPct", .num l2), ("meanResTime", .num l3),
              ("throughput", .num l4), ("errorCount", .num l5)])]) →
      goAtoi l1 = some n1 → parseDec l2 = some q2 → parseDec l3 = some q3 →
      parseDec l4 = some q4 → goAtoi l5 = some n5 →
      parseStatistics readFile jsonParse reportFolder =
        .ok [("sampleCount", .int n1), ("errorPct", .num q2), ("meanResTime", .num q3),
             ("throughput", .num q4), ("Errorcount", .int n5)]) := by
  refine ⟨?_, ?_, ?_⟩
  · intro e he
    simp [parseStatistics, he]
  · intro data hr hp
    simp [parseStatistics, hr, hp]
  · intro data l1 l2 l3 l4 l5 n1 q2 q3 q4 n5 hr hp h1 h2 h3 h4 h5
    have he : eqFold "Total" "Total" = true := rfl
    have hdec : decodeStatistics (.obj [("Total",
        .obj [("sampleCount", .num l1), ("errorPct", .num l2), ("meanResTime", .num l3),
              ("throughput", .num l4), ("errorCount", .num l5)])]) =
        .ok ⟨⟨n1, q2, q3, q4, n5⟩⟩ := by
      simp only [decodeStatistics, List.foldlM, he, if_true,
        decodeTotal_five l1 l2 l3 l4 l5 n1 q2 q3 q4 n5 h1 h2 h3 h4 h5]
      rfl
    simp [parseStatistics, hr, hp, hdec]

/-- The spec's example document
`Total.sampleCount=100, errorPct=2.5, meanResTime=123.4, throughput=50.0, errorCount=2`. -/
def statsJsonExample : JValue :=
  .obj [("Total", .obj [("sampleCount", .num "100"), ("errorPct", .num "2.5"),
    ("meanResTime", .num "123.4"), ("throughput", .num "50.0"), ("errorCount", .num "2")])]

/-- The map the program builds for that document. -/
def statsMapExample : List (String × SValue) :=
  [("sampleCount", .int 100), ("errorPct", .num (5 / 2)), ("meanResTime", .num (617 / 5)),
   ("throughput", .num 50), ("Errorcount", .int 2)]

theorem parseDec_example_errorPct : parseDec "2.5" = some (5 / 2 : ℚ) := by
  simp [parseDec, digitsToNat]
  norm_num

theorem parseDec_example_meanResTime : parseDec "123.4" = some (617 / 5 : ℚ) := by
  simp [parseDec, digitsToNat]
  norm_num

theorem parseDec_example_throughput : parseDec "50.0" = some (50 : ℚ) := by
  simp [parseDec, digitsToNat]

/-- C1 counterexample: on the spec's own example the result map has no
entry under the field name `errorCount`; the error-count value sits
under the key `Errorcount` instead. -/
theorem C1_counterexample :
    parseStatistics (fun _ => .ok "data") (fun _ => some statsJsonExample) "rep" =
      .ok statsMapExample ∧
    statsMapExample.lookup "errorCount" = none ∧
    statsMapExample.lookup "Errorcount" = some (.int 2) := by
  refine ⟨?_, by decide, by decide⟩
  have he : eqFold "Total" "Total" = true := rfl
  have hdec := decodeTotal_five "100" "2.5" "123.4" "50.0" "2" 100 (5 / 2) (617 / 5) 50 2
    rfl parseDec_example_errorPct parseDec_example_meanResTime parseDec_example_throughput rfl
  simp [parseStatistics, statsJsonExample, statsMapExample, decodeStatistics,
    List.foldlM, he, hdec, Except.map]

/-- Witness for C1 (amended) on the spec's example values. -/
theorem C1_parseStatistics_witness :
    parseStatistics (fun _ => .ok "data") (fun _ => some statsJsonExample) "rep" =
      .ok [("sampleCount", .int 100), ("errorPct", .num (5 / 2)),
           ("meanResTime", .num (617 / 5)), ("throughput", .num 50),
           ("Errorcount", .int 2)] := by
  obtain ⟨-, -, h3⟩ :=
    C1_parseStatistics (fun _ => .ok "data") (fun _ => some statsJsonExample) "rep"
  exact h3 "data" "100" "2.5" "123.4" "50.0" "2" 100 (5 / 2) (617 / 5) 50 2
    rfl rfl rfl parseDec_example_errorPct parseDec_example_meanResTime
    parseDec_example_throughput rfl

/-- The all-zero field map. -/
def zeroMap : List (String × SValue) :=
  [("sampleCount", .int 0), ("errorPct", .num 0), ("meanResTime", .num 0),
   ("throughput", .num 0), ("Errorcount", .int 0)]

/-- C10 (amended): a well-formed JSON *object* lacking `Total` (under
the decoder's case-insensitive matching), or whose `Total` object lacks
any of the five fields, decodes without error to zero values for the
missing fields; but a well-formed document whose shape mismatches the
struct (for instance a top-level array) is an error, so absent fields
are never an error while type mismatches are. -/
theorem C10_absent_fields (readFile : String → Except String String)
    (jsonParse : String → Option JValue) (reportFolder : String) :
    (∀ data kvs, readFile (goJoin reportFolder "statistics.json") = .ok data →
      jsonParse data = some (.obj kvs) →
      (∀ p ∈ kvs, eqFold p.1 "Total" = false) →
      parseStatistics readFile jsonParse reportFolder = .ok zeroMap) ∧
    (∀ data tkvs, readFile (goJoin reportFolder "statistics.json") = .ok data →
      jsonParse data = some (.obj [("Total", .obj tkvs)]) →
      (∀ p ∈ tkvs, totalFieldOf p.1 = none) →
      parseStatistics readFile jsonParse reportFolder = .ok zeroMap) ∧
    (∀ data l (n : Int), readFile (goJoin reportFolder "statistics.json") = .ok data →
      jsonParse data = some (.obj [("Total", .obj [("sampleCount", .num l)])]) →
      goAtoi l = some n →
      parseStatistics readFile jsonParse reportFolder =
        .ok [("sampleCount", .int n), ("errorPct", .num 0), ("meanResTime", .num 0),
             ("throughput", .num 0), ("Errorcount", .int 0)]) := by
  refine ⟨?_, ?_, ?_⟩
  · intro data kvs hr hp habs
    have hdec : decodeStatistics (.obj kvs) = .ok ⟨zeroTotal⟩ := by
      simp only [decodeStatistics, foldStatistics_skip kvs zeroTotal habs]
      rfl
    simp [parseStatistics, hr, hp, hdec, zeroMap, zeroTotal]
  · intro data tkvs hr hp habs
    have he : eqFold "Total" "Total" = true := rfl
    have hdec : decodeStatistics (.obj [("Total", .obj tkvs)]) = .ok ⟨zeroTotal⟩ := by
      simp only [decodeStatistics, List.foldlM, he, if_true, decodeTotal,
        foldTotalFields_skip tkvs zeroTotal habs]
      rfl
    simp [parseStatistics, hr, hp, hdec, zeroMap, zeroTotal]
  · intro data l n hr hp h1
    have he : eqFold "Total" "Total" = true := rfl
    have hdec : decodeStatistics (.obj [("Total", .obj [("sampleCount", .num l)])]) =
        .ok ⟨⟨n, 0, 0, 0, 0⟩⟩ := by
      simp only [decodeStatistics, List.foldlM, he, if_true, decodeTotal,
        decodeTotalField_sampleCount zeroTotal l n h1]
      rfl
    simp [parseStatistics, hr, hp, hdec]

/-- C10 counterexample: the empty array is a syntactically valid JSON
document that lacks the `Total` object, yet `parseStatistics` returns an
error (an `UnmarshalTypeError`), not zero values — refuting "an error is
returned only for a read failure or malformed JSON". -/
theorem C10_counterexample :
    parseStatistics (fun _ => .ok "[]") (fun _ => some (.arr [])) "rep" =
      .error (.typeErr "cannot unmarshal value into Statistics of type struct") := rfl

/-- Witness for C10 (amended): an object with an unrelated key decodes
to all-zero fields without error. -/
theorem C10_absent_fields_witness :
    parseStatistics (fun _ => .ok "data")
      (fun _ => some (.obj [("foo", .num "1")])) "rep" = .ok zeroMap := by
  obtain ⟨h1, -, -⟩ :=
    C10_absent_fields (fun _ => .ok "data") (fun _ => some (.obj [("foo", .num "1")])) "rep"
  exact h1 "data" [("foo", .num "1")] rfl rfl (by decide)

/-! ## C5: the result-file path -/

theorem splitSlashAux_noSlash (l : List Char) (h : '/' ∉ l) :
    splitSlashAux l = (l, []) := by
  induction l with
  | nil => rfl
  | cons c cs ih =>
    have hc : ¬(c = '/') := fun e => h (by simp [e])
    unfold splitSlashAux
    rw [ih (fun hm => h (by simp [hm]))]
    simp [hc]

theorem splitSlash_jtl (name : List Char) (h : '/' ∉ name) :
    splitSlash ('J' :: 't' :: 'l' :: '/' :: name) = [['J', 't', 'l'], name] := by
  have ha := splitSlashAux_noSlash name h
  simp [splitSlash, splitSlashAux, ha]

theorem cleanList_jtl (name : List Char) (hslash : '/' ∉ name)
    (hne : name ≠ []) (h1 : name ≠ ['.']) (h2 : name ≠ ['.', '.']) :
    cleanList ('J' :: 't' :: 'l' :: '/' :: name) = 'J' :: 't' :: 'l' :: '/' :: name := by
  unfold cleanList
  rw [if_neg (by simp), splitSlash_jtl name hslash]
  have hstep : cleanFold false [['J', 't', 'l']] [name] = [name, ['J', 't', 'l']] := by
    unfold cleanFold
    rw [if_neg (by simp [hne, h1]), if_neg h2]
    rfl
  have hfold : cleanFold false [] [['J', 't', 'l'], name] = [name, ['J', 't', 'l']] := by
    unfold cleanFold
    rw [if_neg (by simp), if_neg (by simp)]
    exact hstep
  rw [show (decide (('J' :: 't' :: 'l' :: '/' :: name).head? = some '/')) = false from rfl]
  have hbody : List.intercalate ['/'] [['J', 't', 'l'], name] =
      'J' :: 't' :: 'l' :: '/' :: name := by
    simp [List.intercalate, List.intersperse]
  simp only [hfold, List.reverse_cons, List.reverse_nil, List.nil_append,
    List.cons_append, hbody]
  simp

/-- The `filepath.Join("Jtl", name)` leaves a separator-free, non-dot name
under `Jtl` untouched. -/
theorem goJoin_jtl (name : String) (hslash : '/' ∉ name.data)
    (hne : name.data ≠ []) (h1 : name.data ≠ ['.']) (h2 : name.data ≠ ['.', '.']) :
    goJoin "Jtl" name = "Jtl/" ++ name := by
  have hne' : ¬(name = "") := fun e => hne (by rw [e])
  unfold goJoin
  rw [if_neg (by simp [hne']), if_neg (by simp), if_neg hne']
  unfold cleanPath
  have hdata : ("Jtl" ++ "/" ++ name).data = 'J' :: 't' :: 'l' :: '/' :: name.data := rfl
  rw [hdata, cleanList_jtl name.data hslash hne h1 h2]
  rfl

theorem getTimestamp_data (t : DateTime) :
    (getTimestamp t).data =
      [Nat.digitChar (t.year / 1000 % 10), Nat.digitChar (t.year / 100 % 10),
       Nat.digitChar (t.year / 10 % 10), Nat.digitChar (t.year % 10),
       Nat.digitChar (t.month / 10 % 10), Nat.digitChar (t.month % 10),
       Nat.digitChar (t.day / 10 % 10), Nat.digitChar (t.day % 10), '_',
       Nat.digitChar (t.hour / 10 % 10), Nat.digitChar (t.hour % 10),
       Nat.digitChar (t.minute / 10 % 10), Nat.digitChar (t.minute % 10),
       Nat.digitChar (t.second / 10 % 10), Nat.digitChar (t.second % 10)] := rfl

theorem digitChar_mod_ne_slash (n : Nat) : Nat.digitChar (n % 10) ≠ '/' := by
  intro h
  have hd := digitChar_mod_isDigit n
  rw [h] at hd
  exact absurd hd (by decide)

theorem getTimestamp_noSlash (t : DateTime) : '/' ∉ (getTimestamp t).data := by
  intro hmem
  rw [getTimestamp_data] at hmem
  simp only [List.mem_cons, List.not_mem_nil, or_false] at hmem
  rcases hmem with h|h|h|h|h|h|h|h|h|h|h|h|h|h|h <;>
    first
      | exact digitChar_mod_ne_slash _ h.symm
      | exact absurd h.symm (by decide)

theorem string_ext (a b : String) (h : a.data = b.data) : a = b := by
  cases a; cases b; exact congrArg String.mk h

/-- Branch form of `getResultFilenameCore`. -/
theorem getResultFilenameCore_eq (ts input : String) :
    getResultFilenameCore ts input =
      if goTrimSpace input = "" then goJoin jtlDir ("result_" ++ ts ++ ".jtl")
      else if goHasSuffix (goTrimSpace input) ".jtl" then goJoin jtlDir (goTrimSpace input)
      else goJoin jtlDir (goTrimSpace input ++ ".jtl") := by
  unfold getResultFilenameCore
  by_cases h : goTrimSpace input = ""
  · simp [h]
  · by_cases hs : goHasSuffix (goTrimSpace input) ".jtl" = true <;> simp [h, hs]

theorem string_append_assoc (a b c : String) : a ++ b ++ c = a ++ (b ++ c) := by
  apply string_ext
  simp [string_data_append]

/-- C5 (amended): blank input yields `Jtl/result_<timestamp>.jtl` with a
15-character `YYYYMMDD_HHMMSS` timestamp; for a non-blank trimmed name
free of path separators, a missing `.jtl` suffix is appended exactly
once and a present one leaves the name unchanged, the result sitting
under `Jtl/`.  (For names with separator or dot components the
`filepath.Join` cleaning can move the result outside `Jtl` — see the
counterexample.) -/
theorem C5_resultFilename (t : DateTime) (input : String) :
    (goTrimSpace input = "" →
      getResultFilenameCore (getTimestamp t) input =
        "Jtl/result_" ++ getTimestamp t ++ ".jtl") ∧
    ((getTimestamp t).length = 15 ∧ (getTimestamp t).data.get? 8 = some '_' ∧
      ∀ i ∈ ([0, 1, 2, 3, 4, 5, 6, 7, 9, 10, 11, 12, 13, 14] : List Nat),
        ∃ c, (getTimestamp t).data.get? i = some c ∧ c.isDigit = true) ∧
    (goTrimSpace input ≠ "" → '/' ∉ (goTrimSpace input).data →
      goHasSuffix (goTrimSpace input) ".jtl" = false →
      getResultFilenameCore (getTimestamp t) input =
        "Jtl/" ++ goTrimSpace input ++ ".jtl") ∧
    (goTrimSpace input ≠ "" → '/' ∉ (goTrimSpace input).data →
      goHasSuffix (goTrimSpace input) ".jtl" = true →
      getResultFilenameCore (getTimestamp t) input = "Jtl/" ++ goTrimSpace input) := by
  have hdatane : ∀ s : String, s ≠ "" → s.data ≠ [] :=
    fun s hs e => hs (string_ext s "" e)
  refine ⟨?_, ⟨?_, ?_, ?_⟩, ?_, ?_⟩
  · intro h
    rw [getResultFilenameCore_eq, if_pos h]
    have c1 : '/' ∉ ("result_" ++ getTimestamp t ++ ".jtl").data := by
      have hnos := getTimestamp_noSlash t
      intro hmem
      simp only [string_data_append, List.mem_append, List.mem_cons,
        List.not_mem_nil, or_false] at hmem
      rcases hmem with (h | h) | h
      · revert h; decide
      · exact hnos h
      · revert h; decide
    have c2 : ("result_" ++ getTimestamp t ++ ".jtl").data ≠ [] := by
      simp [string_data_append]
    have c3 : ("result_" ++ getTimestamp t ++ ".jtl").data ≠ ['.'] := by
      simp [string_data_append]
    have c4 : ("result_" ++ getTimestamp t ++ ".jtl").data ≠ ['.', '.'] := by
      simp [string_data_append]
    rw [show jtlDir = "Jtl" from rfl,
      goJoin_jtl ("result_" ++ getTimestamp t ++ ".jtl") c1 c2 c3 c4]
    apply string_ext
    simp [string_data_append]
  · show (getTimestamp t).data.length = 15
    rw [getTimestamp_data]
    rfl
  · rw [getTimestamp_data]
    rfl
  · intro i hi
    rw [getTimestamp_data]
    fin_cases hi <;> exact ⟨_, rfl, digitChar_mod_isDigit _⟩
  · intro hne hslash hsuf
    rw [getResultFilenameCore_eq, if_neg hne, if_neg (by simp [hsuf])]
    have c1 : '/' ∉ (goTrimSpace input ++ ".jtl").data := by
      intro hmem
      simp only [string_data_append, List.mem_append] at hmem
      rcases hmem with h | h
      · exact hslash h
      · revert h; decide
    have c2 : (goTrimSpace input ++ ".jtl").data ≠ [] := by
      simp [string_data_append]
    have c3 : (goTrimSpace input ++ ".jtl").data ≠ ['.'] := by
      intro h
      have hlen := congrArg List.length h
      simp [string_data_append] at hlen
    have c4 : (goTrimSpace input ++ ".jtl").data ≠ ['.', '.'] := by
      intro h
      have hlen := congrArg List.length h
      simp [string_data_append] at hlen
    rw [show jtlDir = "Jtl" from rfl, goJoin_jtl (goTrimSpace input ++ ".jtl") c1 c2 c3 c4,
      string_append_assoc]
  · intro hne hslash hsuf
    rw [getResultFilenameCore_eq, if_neg hne, if_pos hsuf]
    obtain ⟨pre, hpre⟩ := List.isSuffixOf_iff_suffix.mp hsuf
    have c3 : (goTrimSpace input).data ≠ ['.'] := by
      intro h
      rw [← hpre] at h
      have hlen := congrArg List.length h
      simp at hlen
    have c4 : (goTrimSpace input).data ≠ ['.', '.'] := by
      intro h
      rw [← hpre] at h
      have hlen := congrArg List.length h
      simp at hlen
    rw [show jtlDir = "Jtl" from rfl,
      goJoin_jtl (goTrimSpace input) hslash (hdatane _ hne) c3 c4]

/-- C5 counterexample: the non-blank input `../x` gets `.jtl` appended,
but `filepath.Join`'s cleaning turns `Jtl/../x.jtl` into `x.jtl`, which
does not lie under the `Jtl` directory. -/
theorem C5_counterexample :
    getResultFilenameCore "20250101_120000" "../x" = "x.jtl" ∧
    "Jtl/".data.isPrefixOf (getResultFilenameCore "20250101_120000" "../x").data = false := by
  exact ⟨by decide, by decide⟩

/-- Witness for C5 at concrete inputs: whitespace-only input takes the
timestamp default; `abc` gains the suffix; `abc.jtl` is unchanged. -/
theorem C5_resultFilename_witness :
    goTrimSpace "  " = "" ∧
    getResultFilenameCore (getTimestamp ⟨2025, 1, 1, 0, 0, 0⟩) "  " =
      "Jtl/result_" ++ getTimestamp ⟨2025, 1, 1, 0, 0, 0⟩ ++ ".jtl" ∧
    getResultFilenameCore (getTimestamp ⟨2025, 1, 1, 0, 0, 0⟩) " abc " =
      "Jtl/" ++ goTrimSpace " abc " ++ ".jtl" ∧
    getResultFilenameCore (getTimestamp ⟨2025, 1, 1, 0, 0, 0⟩) "abc.jtl" =
      "Jtl/" ++ goTrimSpace "abc.jtl" :=
  ⟨by decide,
   (C5_resultFilename ⟨2025, 1, 1, 0, 0, 0⟩ "  ").1 (by decide),
   (C5_resultFilename ⟨2025, 1, 1, 0, 0, 0⟩ " abc ").2.2.1 (by decide) (by decide) (by decide),
   (C5_resultFilename ⟨2025, 1, 1, 0, 0, 0⟩ "abc.jtl").2.2.2 (by decide) (by decide) (by decide)⟩

/-! ## C3: process exit codes -/

/-- Hoare-style triple over `GoM`: from any state satisfying `P` the
computation returns normally with result and state satisfying `Q`. -/
def triple (P : RunState → Prop) (m : GoM α) (Q : α → RunState → Prop) : Prop :=
  ∀ st, P st → ∃ a st', m st = .ok (a, st') ∧ Q a st'

theorem triple_bind {P : RunState → Prop} {m : GoM α} {Q : α → RunState → Prop}
    {f : α → GoM β} {R : β → RunState → Prop}
    (h1 : triple P m Q) (h2 : ∀ a, triple (Q a) (f a) R) :
    triple P (m >>= f) R := by
  intro st hp
  obtain ⟨a, st', e1, hq⟩ := h1 st hp
  obtain ⟨b, st'', e2, hr⟩ := h2 a st' hq
  exact ⟨b, st'', by simp [e1, e2], hr⟩

theorem bind_error (m : GoM α) (f : α → GoM β) (st : RunState)
    (e : Nat × RunState) (h : m st = .error e) : (m >>= f) st = .error e := by
  simp [h]

theorem ensureDir_triple (env : Env) (dir : String) (hm : env.mkdirOk dir = true)
    (P : RunState → Prop) (hP : ∀ st st', st.dirs ⊆ st'.dirs → P st → P st') :
    triple P (ensureDir env dir) (fun _ st => P st ∧ dir ∈ st.dirs) := by
  intro st hp
  obtain ⟨st', e, hsub, hmem, -, -⟩ := ensureDir_ok env dir st hm
  exact ⟨(), st', e, hP st st' hsub hp, hmem⟩

/-- The invariant used below: the debug directory exists. -/
def PDir (st : RunState) : Prop := debugDir ∈ st.dirs

theorem listJMXFiles_triple (env : Env) (entries : List DirEntry)
    (he : env.readDir = some entries) (hne : jmxNames entries ≠ []) :
    triple PDir (listJMXFiles env) (fun files st => files = jmxNames entries ∧ PDir st) := by
  intro st hp
  exact ⟨jmxNames entries, _, listJMXFiles_ok env st entries he hne, rfl, hp⟩

theorem selectJMXFile_triple (env : Env) (entries : List DirEntry) (i : Int)
    (hp : goAtoi env.choiceInput = some i) (hlo : 1 ≤ i)
    (hhi : i ≤ ((jmxNames entries).length : Int)) (files : List String) :
    triple (fun st => files = jmxNames entries ∧ PDir st) (selectJMXFile env files)
      (fun _ st => PDir st) := by
  rintro st ⟨rfl, hd⟩
  exact ⟨_, _, selectJMXFile_ok env st (jmxNames entries) i hp hlo hhi, hd⟩

theorem getResultFilename_triple (env : Env) :
    triple PDir (getResultFilename env) (fun _ st => PDir st) := by
  intro st hp
  obtain ⟨st', e, hdirs, -, -⟩ := getResultFilename_ok env st
  exact ⟨_, st', e, show debugDir ∈ st'.dirs by rw [hdirs]; exact hp⟩

theorem getReportFolder_triple (env : Env) (hm : ∀ d, env.mkdirOk d = true) :
    triple PDir (getReportFolder env) (fun _ st => PDir st) := by
  intro st hp
  obtain ⟨p, st', e, hsub, -, -⟩ := getReportFolder_ok env st hm
  exact ⟨p, st', e, hsub hp⟩

theorem getRDebugFilename_triple (env : Env) :
    triple PDir (getRDebugFilename env) (fun _ st => PDir st) := by
  intro st hp
  obtain ⟨v, st', e, hdirs, -, -⟩ := getRDebugFilename_ok env st
  exact ⟨v, st', e, show debugDir ∈ st'.dirs by rw [hdirs]; exact hp⟩

theorem runJMeter_triple (env : Env) (a b c d : String) :
    triple PDir (runJMeter env a b c d) (fun _ _ => True) := by
  intro st hp
  obtain ⟨st', e, -, -⟩ := runJMeter_total env st a b c d hp
  exact ⟨(), st', e, trivial⟩

theorem triple_conseq {P P' : RunState → Prop} {m : GoM α}
    {Q Q' : α → RunState → Prop} (h : triple P m Q)
    (hP : ∀ st, P' st → P st) (hQ : ∀ a st, Q a st → Q' a st) :
    triple P' m Q' := by
  intro st hp
  obtain ⟨a, st', e, hq⟩ := h st (hP st hp)
  exact ⟨a, st', e, hQ a st' hq⟩

/-- Under a cooperative filesystem and a valid selection, `mainGo`
returns normally — regardless of whether the external run succeeds. -/
theorem mainGo_ok (env : Env) (st : RunState) (hm : ∀ d, env.mkdirOk d = true)
    (entries : List DirEntry) (he : env.readDir = some entries)
    (i : Int) (hp : goAtoi env.choiceInput = some i) (hlo : 1 ≤ i)
    (hhi : i ≤ ((jmxNames entries).length : Int)) :
    ∃ a st', mainGo env st = .ok (a, st') := by
  have hne : jmxNames entries ≠ [] := by
    intro h0
    rw [h0] at hhi
    simp at hhi
    omega
  have T : triple (fun _ => True) (mainGo env) (fun _ _ => True) := by
    unfold mainGo
    refine triple_bind (triple_conseq
      (ensureDir_triple env reportDir (hm _) (fun _ => True) (fun _ _ _ _ => trivial))
      (fun _ h => h) (fun _ _ _ => trivial)) ?_
    intro _
    refine triple_bind (triple_conseq
      (ensureDir_triple env jtlDir (hm _) (fun _ => True) (fun _ _ _ _ => trivial))
      (fun _ h => h) (fun _ _ _ => trivial)) ?_
    intro _
    refine triple_bind (triple_conseq
      (ensureDir_triple env debugDir (hm _) (fun _ => True) (fun _ _ _ _ => trivial))
      (fun _ h => h) (fun _ _ h => h.2)) ?_
    intro _
    refine triple_bind (listJMXFiles_triple env entries he hne) ?_
    intro files
    refine triple_bind (selectJMXFile_triple env entries i hp hlo hhi files) ?_
    intro jmx
    refine triple_bind (getResultFilename_triple env) ?_
    intro resultFile
    refine triple_bind (getReportFolder_triple env hm) ?_
    intro reportFolder
    refine triple_bind (getRDebugFilename_triple env) ?_
    intro debugFile
    exact runJMeter_triple env jmx resultFile reportFolder debugFile
  obtain ⟨a, st', e, -⟩ := T st trivial
  exact ⟨a, st', e⟩

/-- C3 (amended): the process exits 0 on normal completion — including
runs where the external `jmeter` fails — and exits 1 on a
directory-listing failure, on finding no `.jmx` files, and on invalid
file-selection input; but those are not the only exit-1 paths: a failure
to create one of the working directories also terminates the process
with status 1 (`log.Fatalf` in `ensureDir`). -/
theorem C3_exitCodes (env : Env) (st : RunState) :
    ((∀ d, env.mkdirOk d = true) →
      ∀ entries, env.readDir = some entries →
      ∀ i : Int, goAtoi env.choiceInput = some i → 1 ≤ i →
      i ≤ ((jmxNames entries).length : Int) →
      exitCode env st = 0) ∧
    ((∀ d, env.mkdirOk d = true) → env.readDir = none → exitCode env st = 1) ∧
    ((∀ d, env.mkdirOk d = true) → ∀ entries, env.readDir = some entries →
      jmxNames entries = [] → exitCode env st = 1) ∧
    ((∀ d, env.mkdirOk d = true) → ∀ entries, env.readDir = some entries →
      jmxNames entries ≠ [] →
      (goAtoi env.choiceInput = none ∨
        ∃ i : Int, goAtoi env.choiceInput = some i ∧
          (i < 1 ∨ i > ((jmxNames entries).length : Int))) →
      exitCode env st = 1) ∧
    (reportDir ∉ st.dirs → env.mkdirOk reportDir = false → exitCode env st = 1) := by
  refine ⟨?_, ?_, ?_, ?_, ?_⟩
  · intro hm entries he i hp hlo hhi
    obtain ⟨a, st', e⟩ := mainGo_ok env st hm entries he i hp hlo hhi
    unfold exitCode
    rw [e]
  · intro hm he
    obtain ⟨st1, e1, -, -, -, -⟩ := ensureDir_ok env reportDir st (hm _)
    obtain ⟨st2, e2, -, -, -, -⟩ := ensureDir_ok env jtlDir st1 (hm _)
    obtain ⟨st3, e3, -, mem3, -, -⟩ := ensureDir_ok env debugDir st2 (hm _)
    have e4 := listJMXFiles_fail_read env st3 mem3 he
    unfold exitCode mainGo
    simp only [GoM.bind_apply, e1, e2, e3, e4]
  · intro hm entries he hemp
    obtain ⟨st1, e1, -, -, -, -⟩ := ensureDir_ok env reportDir st (hm _)
    obtain ⟨st2, e2, -, -, -, -⟩ := ensureDir_ok env jtlDir st1 (hm _)
    obtain ⟨st3, e3, -, mem3, -, -⟩ := ensureDir_ok env debugDir st2 (hm _)
    have e4 := listJMXFiles_fail_empty env st3 mem3 entries he hemp
    unfold exitCode mainGo
    simp only [GoM.bind_apply, e1, e2, e3, e4]
  · intro hm entries he hne hbad
    obtain ⟨st1, e1, -, -, -, -⟩ := ensureDir_ok env reportDir st (hm _)
    obtain ⟨st2, e2, -, -, -, -⟩ := ensureDir_ok env jtlDir st1 (hm _)
    obtain ⟨st3, e3, -, mem3, -, -⟩ := ensureDir_ok env debugDir st2 (hm _)
    have e4 := listJMXFiles_ok env st3 entries he hne
    obtain ⟨stx, ex, -, -⟩ := selectJMXFile_fatal env
      { st3 with console := st3.console ++ [ConsoleMsg.fileList (jmxNames entries)] }
      (jmxNames entries) mem3 hbad
    unfold exitCode mainGo
    simp only [GoM.bind_apply, e1, e2, e3, e4, ex]
  · intro hrd hmk
    have e1 := ensureDir_fatal env reportDir st hrd hmk
    unfold exitCode mainGo
    simp only [GoM.bind_apply, e1]

/-- C3 counterexample: when the `Reporter` directory cannot be created,
the process exits with status 1 even though the listing would succeed, a
`.jmx` file exists, and the selection input is valid — refuting "exits
with status 1 exactly on directory-listing failure, no `.jmx` files, or
invalid file-selection input". -/
theorem C3_counterexample :
    exitCode { envHappy with mkdirOk := fun _ => false } initState = 1 ∧
    { envHappy with mkdirOk := fun _ => false }.readDir =
      some [⟨"a.jmx", false⟩, ⟨"b.txt", false⟩, ⟨"c.jmx", true⟩] ∧
    jmxNames [⟨"a.jmx", false⟩, ⟨"b.txt", false⟩, ⟨"c.jmx", true⟩] = ["a.jmx"] ∧
    goAtoi { envHappy with mkdirOk := fun _ => false }.choiceInput = some 1 :=
  ⟨rfl, rfl, by decide, by decide⟩

/-- Witness for C3 (amended): with a cooperative filesystem the exit
status is 0 whether the external run succeeds or fails. -/
theorem C3_exitCodes_witness :
    exitCode envHappy initState = 0 ∧
    exitCode { envHappy with jmeterOk := false } initState = 0 :=
  ⟨(C3_exitCodes envHappy initState).1 (fun _ => rfl)
      [⟨"a.jmx", false⟩, ⟨"b.txt", false⟩, ⟨"c.jmx", true⟩] rfl 1
      (by decide) (by decide) (by decide),
   (C3_exitCodes { envHappy with jmeterOk := false } initState).1 (fun _ => rfl)
      [⟨"a.jmx", false⟩, ⟨"b.txt", false⟩, ⟨"c.jmx", true⟩] rfl 1
      (by decide) (by decide) (by decide)⟩
